import Mathlib

/-!
Shallow embedding of the simulation core of the `arjaz/roguelike` program
(source files `src/main.rs` and its module split `src/object.rs`,
`src/fighter.rs`, `src/item.rs`, `src/room.rs`, `src/game.rs`; the
monolithic `main.rs` and the split modules contain textually identical
function bodies, so one embedding covers both).

Modelling conventions:
* `i32`/`u32` values become `Int`/`Nat`; none of the embedded code paths
  can overflow `i32` (coordinates are below 80, hp/xp values are small),
  so no wrap-around modelling is needed.
* `tcod::colors::Color` constants are embedded as their constant names
  (`String`), since the code only stores and reports them.
* `Vec<T>` becomes `List T`; `Vec::swap_remove`, `Vec::remove`,
  `Vec::truncate` become the corresponding list operations.  Rust index
  panics on out-of-range indices are embedded as no-op/default branches;
  every theorem below supplies the bounds that make those branches dead.
* All distance comparisons in the source compute `sqrt(dx*dx + dy*dy)` in
  `f32`/`f64` and compare against an integer constant `c`.  For the integer
  inputs that occur (coordinates below 80, so the radicand is at most
  about 8000 and exactly representable), `sqrt` is correctly rounded and
  strictly monotone on exactly-representable inputs, hence
  `sqrt s <= c` iff `s <= c*c`, `sqrt s >= c` iff `s >= c*c`, and
  `sqrt s < sqrt t` iff `s < t`.  The embedding therefore keeps squared
  distances; this is exact, not an approximation.
* `rand::thread_rng` draws are embedded by threading an explicit stream of
  pre-drawn values (`Rng := List Nat`); `gen_range(lo, hi)` maps the next
  value into `[lo, hi)`.  Quantifying over all streams quantifies over all
  RNG outcomes.
* Interactive targeting (`target_tile`, `target_monster`) blocks on player
  input; its outcome is embedded as a pre-chosen `Option` value carried in
  the `Tcod` record, alongside the field-of-view predicate.
-/

namespace Roguelike

/-- Color constants are carried by name only. -/
abbrev Color := String

/-- `Tile` from the source: `{blocked, explored, block_sight}`. -/
structure Tile where
  blocked : Bool
  explored : Bool
  block_sight : Bool
deriving DecidableEq, Repr

/-- `Tile::empty()`. -/
def Tile.empty : Tile := { blocked := false, explored := false, block_sight := false }

/-- `Tile::wall()`. -/
def Tile.wall : Tile := { blocked := true, explored := false, block_sight := true }

/-- `type Map = Vec<Vec<Tile>>`, addressed as `map[x][y]`. -/
abbrev GameMap := List (List Tile)

def MAP_WIDTH : Int := 80
def MAP_HEIGHT : Int := 43
def PLAYER : Nat := 0
def ROOM_MAX_SIZE : Int := 10
def ROOM_MIN_SIZE : Int := 6
def MAX_ROOMS : Nat := 30
def INVENTORY_SIZE : Nat := 26
def HEAL_AMOUNT : Int := 10
def LIGHTNING_DAMAGE : Int := 30
def FIRE_DAMAGE : Int := 15
def SPELL_RANGE : Int := 10
def CONFUSION_DURATION : Int := 5

/-- Character slots (`enum Slot`). -/
inductive Slot where
  | LeftHand
  | RightHand
  | Head
deriving DecidableEq, Repr

/-- The `Display` instance for `Slot`. -/
def Slot.display : Slot → String
  | .LeftHand => "left hand"
  | .RightHand => "right hand"
  | .Head => "head"

/-- `struct Equipment` (field order as in the source). -/
structure Equipment where
  slot : Slot
  equipped : Bool
  power_bonus : Int
  defense_bonus : Int
  max_hp_bonus : Int
deriving DecidableEq, Repr

/-- `enum DeathCallback`. -/
inductive DeathCallback where
  | Player
  | Monster
deriving DecidableEq, Repr

/-- `struct Fighter`. -/
structure Fighter where
  base_max_hp : Int
  hp : Int
  base_defense : Int
  base_power : Int
  xp : Int
  on_death : DeathCallback
deriving DecidableEq, Repr

/-- `enum Item`. -/
inductive Item where
  | Heal
  | Lightning
  | Fireball
  | Confusion
  | Sword
  | Shield
deriving DecidableEq, Repr

/-- `enum Ai`; `Box<Ai>` becomes plain nesting. -/
inductive Ai where
  | Basic
  | Confused (previous_ai : Ai) (num_turns : Int)
deriving DecidableEq, Repr

/-- `struct Object`. -/
structure Object where
  x : Int
  y : Int
  char : Char
  color : Color
  name : String
  blocks : Bool
  alive : Bool
  fighter : Option Fighter
  equipment : Option Equipment
  ai : Option Ai
  item : Option Item
  always_visible : Bool
  level : Int
deriving DecidableEq, Repr

/-- `Object::new`. -/
def Object.new (x y : Int) (char : Char) (name : String) (color : Color)
    (blocks : Bool) : Object :=
  { x := x, y := y, char := char, color := color, name := name, blocks := blocks,
    alive := false, fighter := none, equipment := none, ai := none, item := none,
    always_visible := false, level := 1 }

/-- Default object used where Rust would panic on a missing index; theorems
always carry the bounds that keep this value unused. -/
instance : Inhabited Object := ⟨Object.new 0 0 ' ' "" "WHITE" false⟩

/-- `struct Messages` (the `Vec` of `(text, color)` pairs). -/
abbrev Messages := List (String × Color)

/-- `Messages::add`. -/
def Messages.add (m : Messages) (s : String) (c : Color) : Messages := m ++ [(s, c)]

/-- `struct Game`. -/
structure Game where
  map : GameMap
  messages : Messages
  inventory : List Object
  dungeon_level : Nat
deriving Repr

/-- `game.messages.add(...)` on a whole `Game`. -/
def Game.addMessage (g : Game) (s : String) (c : Color) : Game :=
  { g with messages := g.messages.add s c }

/-- `Object::pos`. -/
def Object.pos (o : Object) : Int × Int := (o.x, o.y)

/-- `Object::set_pos`. -/
def Object.set_pos (o : Object) (x y : Int) : Object := { o with x := x, y := y }

/-- Squared Euclidean distance between two objects; the source's
`Object::distance_to` is `sqrt` of this in `f32` (see the header note on
why comparing squares is exact). -/
def Object.distSqTo (o other : Object) : Int :=
  (other.x - o.x) * (other.x - o.x) + (other.y - o.y) * (other.y - o.y)

/-- Squared Euclidean distance from an object to a tile; the source's
`Object::distance` is `sqrt` of this in `f32`. -/
def Object.distSq (o : Object) (x y : Int) : Int :=
  (x - o.x) * (x - o.x) + (y - o.y) * (y - o.y)

/-- `fn player_death`: mark the player dead visually; the `Fighter` record
is left in place. -/
def player_death (player : Object) (game : Game) : Object × Game :=
  ({ player with char := '%', color := "DARK_RED" },
   game.addMessage "Your history ends here" "RED")

/-- `fn monster_death`: strip `Fighter` and `Ai`, unblock, rename. -/
def monster_death (monster : Object) (game : Game) : Object × Game :=
  let game := game.addMessage (monster.name ++ " dies!") "RED"
  ({ monster with char := '%', color := "DARK_RED", blocks := false,
                  fighter := none, ai := none,
                  name := "remains of " ++ monster.name }, game)

/-- `DeathCallback::callback`. -/
def DeathCallback.callback : DeathCallback → Object → Game → Object × Game
  | .Player => player_death
  | .Monster => monster_death

/-- `Object::take_damage`.  Note that the source copies the `Fighter` value
out of `self.fighter` before running the death callback, so the returned
xp is read from the pre-callback fighter even though `monster_death`
clears `self.fighter`. -/
def Object.take_damage (self : Object) (damage : Int) (game : Game) :
    Object × Game × Option Int :=
  let self :=
    match self.fighter with
    | some f =>
      if damage > 0 then { self with fighter := some { f with hp := f.hp - damage } }
      else self
    | none => self
  match self.fighter with
  | some f =>
    if f.hp ≤ 0 then
      let self := { self with alive := false }
      let (self, game) := f.on_death.callback self game
      (self, game, some f.xp)
    else (self, game, none)
  | none => (self, game, none)

/-- `Object::get_all_equipped`: only the object named `player` draws
bonuses, from the equipped items of the game inventory. -/
def Object.get_all_equipped (self : Object) (game : Game) : List Equipment :=
  if self.name = "player" then
    (game.inventory.filter
      (fun item => item.equipment.elim false (fun e => e.equipped))).filterMap
      (fun item => item.equipment)
  else []

/-- `Object::max_hp`. -/
def Object.max_hp (self : Object) (game : Game) : Int :=
  (self.fighter.elim 0 (fun f => f.base_max_hp)) +
    ((self.get_all_equipped game).map (fun e => e.max_hp_bonus)).sum

/-- `Object::power`. -/
def Object.power (self : Object) (game : Game) : Int :=
  (self.fighter.elim 0 (fun f => f.base_power)) +
    ((self.get_all_equipped game).map (fun e => e.power_bonus)).sum

/-- `Object::defense`. -/
def Object.defense (self : Object) (game : Game) : Int :=
  (self.fighter.elim 0 (fun f => f.base_defense)) +
    ((self.get_all_equipped game).map (fun e => e.defense_bonus)).sum

/-- `Object::attack`; returns (attacker, target, game).  The source's
`self.fighter.as_mut().unwrap()` xp credit is embedded with `Option.map`;
every attacker in the embedded call sites has a fighter. -/
def Object.attack (self target : Object) (game : Game) : Object × Object × Game :=
  let damage := self.power game - target.defense game
  if damage > 0 then
    let game := game.addMessage
      (target.name ++ " gets " ++ toString damage ++ " damage from " ++ self.name) "RED"
    let (target, game, xpOpt) := target.take_damage damage game
    match xpOpt with
    | some xp =>
      ({ self with fighter := self.fighter.map (fun f => { f with xp := f.xp + xp }) },
       target, game)
    | none => (self, target, game)
  else
    (self, target,
     game.addMessage (self.name ++ " failed to scratch " ++ target.name) "RED")

/-- `Object::heal`: add `amount`, clamp from above to the effective max hp. -/
def Object.heal (self : Object) (amount : Int) (game : Game) : Object :=
  let max_hp := self.max_hp game
  match self.fighter with
  | some f =>
    let f := { f with hp := f.hp + amount }
    let f := if f.hp > max_hp then { f with hp := max_hp } else f
    { self with fighter := some f }
  | none => self

/-- `Object::equip` (note: returns early, without touching the equipment,
when the object has no `Item` facet). -/
def Object.equip (self : Object) (messages : Messages) : Object × Messages :=
  if self.item.isNone then
    (self, messages.add ("Can\x27t equip " ++ self.name ++ " as it\x27s not an item") "RED")
  else
    match self.equipment with
    | some equipment =>
      if !equipment.equipped then
        ({ self with equipment := some { equipment with equipped := true } },
         messages.add ("Equipped " ++ self.name ++ " on " ++ equipment.slot.display)
           "LIGHT_GREEN")
      else (self, messages)
    | none =>
      (self, messages.add ("Can\x27t equip " ++ self.name ++ " as it\x27s not an equipment")
        "RED")

/-- `Object::dequip` (note: unlike `equip`, the missing-`Item` message does
NOT return early; the dequip still happens). -/
def Object.dequip (self : Object) (messages : Messages) : Object × Messages :=
  let messages :=
    if self.item.isNone then
      messages.add ("Can\x27t dequip " ++ self.name ++ " as it\x27s not an item") "RED"
    else messages
  match self.equipment with
  | some equipment =>
    if equipment.equipped then
      ({ self with equipment := some { equipment with equipped := false } },
       messages.add ("Dequipped " ++ self.name ++ " from " ++ equipment.slot.display)
         "LIGHT_YELLOW")
    else (self, messages)
  | none =>
    (self, messages.add ("Can\x27t dequip " ++ self.name ++ " as it\x27s not an equipment")
      "RED")

/-- The non-rendering state of `struct Tcod` that the embedded code reads:
the field-of-view predicate, plus the outcomes of the interactive
targeting sub-loops (`target_tile` / `target_monster`), which in the
source block on mouse input while the world is frozen. -/
structure Tcod where
  fov : Int → Int → Bool
  tile_target : Option (Int × Int)
  monster_target : Option Nat

/-- `Vec::swap_remove(i)`: replace slot `i` with the last element and pop. -/
def swapRemove (l : List Object) (i : Nat) : List Object :=
  match l.getLast? with
  | some last => (l.set i last).dropLast
  | none => []

/-- `fn pick_item`. -/
def pick_item (object_id : Nat) (game : Game) (objects : List Object) :
    Game × List Object :=
  if INVENTORY_SIZE ≤ game.inventory.length then
    (game.addMessage "Your inventory is full" "DARK_RED", objects)
  else
    match objects.get? object_id with
    | some item =>
      let objects := swapRemove objects object_id
      let game := game.addMessage ("You picked up an item: " ++ item.name) "LIGHT_GREY"
      ({ game with inventory := game.inventory ++ [item] }, objects)
    | none => (game, objects)

/-- The predicate tested by `get_equipped_in_slot`. -/
def equippedInSlot (slot : Slot) (item : Object) : Bool :=
  item.equipment.elim false (fun e => e.equipped && e.slot == slot)

/-- `fn get_equipped_in_slot`: index of the first inventory object that is
equipped in `slot`. -/
def get_equipped_in_slot (slot : Slot) : List Object → Option Nat
  | [] => none
  | item :: rest =>
    if equippedInSlot slot item then some 0
    else (get_equipped_in_slot slot rest).map (· + 1)

/-- `enum UseResult`. -/
inductive UseResult where
  | UsedUp
  | Cancelled
  | UsedAndKept
deriving DecidableEq, Repr

/-- Apply an in-place mutation `game.inventory[i].f(&mut game.messages)`. -/
def modifyInv (l : List Object) (i : Nat)
    (f : Object → Messages → Object × Messages) (msgs : Messages) :
    List Object × Messages :=
  match l.get? i with
  | some o => let (o, msgs) := f o msgs; (l.set i o, msgs)
  | none => (l, msgs)

/-- `fn toggle_equipment`.  The `equipment` value is copied out of the
inventory before the slot holder is dequipped, exactly as in the source. -/
def toggle_equipment (inventory_id : Nat) (game : Game) : Game × UseResult :=
  match (game.inventory.get? inventory_id).bind (fun o => o.equipment) with
  | none => (game, .Cancelled)
  | some equipment =>
    let (inv, msgs) :=
      match get_equipped_in_slot equipment.slot game.inventory with
      | some current => modifyInv game.inventory current Object.dequip game.messages
      | none => (game.inventory, game.messages)
    let (inv, msgs) :=
      if equipment.equipped then modifyInv inv inventory_id Object.dequip msgs
      else modifyInv inv inventory_id Object.equip msgs
    ({ game with inventory := inv, messages := msgs }, .UsedAndKept)

/-- `fn cast_heal`. -/
def cast_heal (game : Game) (objects : List Object) :
    Game × List Object × UseResult :=
  match (objects.get? PLAYER).bind (fun p => p.fighter) with
  | some fighter =>
    let player := objects.getD PLAYER default
    if fighter.hp == player.max_hp game then
      (game.addMessage "HP is already full" "WHITE", objects, .Cancelled)
    else
      let game := game.addMessage "Your wounds heal" "LIGHT_VIOLET"
      (game, objects.set PLAYER (player.heal HEAL_AMOUNT game), .UsedUp)
  | none => (game, objects, .Cancelled)

/-- `objects[PLAYER].fighter.as_mut().unwrap().xp += xp` (the unwrap panic
is embedded as a no-op; the player carries a fighter in all call sites). -/
def addPlayerXp (objects : List Object) (xp : Int) : List Object :=
  match objects.get? PLAYER with
  | some p =>
    objects.set PLAYER
      { p with fighter := p.fighter.map (fun f => { f with xp := f.xp + xp }) }
  | none => objects

/-- `fn closest_monster`: first index attaining the minimal distance to the
player among fighters with an `Ai` inside the fov, below `range + 1`
(squared distances; see the header note). -/
def closest_monster (tcod : Tcod) (objects : List Object) (range : Int) : Option Nat :=
  (objects.enum.foldl
    (fun acc p =>
      let (id, o) := p
      if id ≠ PLAYER && o.fighter.isSome && o.ai.isSome && tcod.fov o.x o.y then
        let dSq := (objects.getD PLAYER default).distSqTo o
        if dSq < acc.2 then (some id, dSq) else acc
      else acc)
    ((none : Option Nat), (range + 1) * (range + 1))).1

/-- `fn cast_lightning`. -/
def cast_lightning (tcod : Tcod) (game : Game) (objects : List Object) :
    Game × List Object × UseResult :=
  match closest_monster tcod objects SPELL_RANGE with
  | some monster_id =>
    let m := objects.getD monster_id default
    let game := game.addMessage
      ("A lightning bolt strikes " ++ m.name ++ " for " ++
        toString LIGHTNING_DAMAGE ++ " damage") "LIGHT_BLUE"
    let (m, game, xpOpt) := m.take_damage LIGHTNING_DAMAGE game
    let objects := objects.set monster_id m
    let objects :=
      match xpOpt with
      | some xp => addPlayerXp objects xp
      | none => objects
    (game, objects, .UsedUp)
  | none => (game.addMessage "There is no one to strike" "WHITE", objects, .Cancelled)

/-- `fn cast_confusion` (the `ai.take().unwrap()` panic on an ai-less
target is embedded as leaving the object unchanged; targeting only
returns fighters, which carry an `Ai` while alive). -/
def cast_confusion (tcod : Tcod) (game : Game) (objects : List Object) :
    Game × List Object × UseResult :=
  let game := game.addMessage "Choose an enemy to confuse" "LIGHT_GREY"
  match tcod.monster_target with
  | some monster_id =>
    let m := objects.getD monster_id default
    let game := game.addMessage (m.name ++ " gets confused") "LIGHT_BLUE"
    match m.ai with
    | some old_ai =>
      (game, objects.set monster_id
        { m with ai := some (.Confused old_ai CONFUSION_DURATION) }, .UsedUp)
    | none => (game, objects, .UsedUp)
  | none => (game.addMessage "There is no one to confused" "WHITE", objects, .Cancelled)

/-- The per-object hit test of `cast_fireball`:
`obj.distance(x, y) <= (SPELL_RANGE / 2) as f32 && obj.fighter.is_some()`. -/
def fireballHit (x y : Int) (o : Object) : Bool :=
  o.distSq x y ≤ (SPELL_RANGE / 2) * (SPELL_RANGE / 2) && o.fighter.isSome

/-- The `for (id, obj) in objects.iter_mut().enumerate()` loop of
`cast_fireball`: burns every fighter in radius, accumulating the xp of
kills whose index is not `PLAYER`. -/
def fireball_loop (x y : Int) :
    List Object → Nat → Game → Int → List Object × Game × Int
  | [], _, game, acc => ([], game, acc)
  | o :: rest, id, game, acc =>
    if fireballHit x y o then
      let game := game.addMessage (o.name ++ " is burnt by the infernal spell!") "ORANGE"
      let (o, game, xpOpt) := o.take_damage FIRE_DAMAGE game
      let acc :=
        match xpOpt with
        | some xp => if id ≠ PLAYER then acc + xp else acc
        | none => acc
      let (rest, game, acc) := fireball_loop x y rest (id + 1) game acc
      (o :: rest, game, acc)
    else
      let (rest, game, acc) := fireball_loop x y rest (id + 1) game acc
      (o :: rest, game, acc)

/-- `fn cast_fireball`. -/
def cast_fireball (tcod : Tcod) (game : Game) (objects : List Object) :
    Game × List Object × UseResult :=
  let game := game.addMessage "Choose a tile to cast infernal flames to" "LIGHT_GREY"
  match tcod.tile_target with
  | none => (game, objects, .Cancelled)
  | some (x, y) =>
    let game := game.addMessage
      "The fireball explodes and burnes everything it can touch" "ORANGE"
    let (objects, game, gained_xp) := fireball_loop x y objects 0 game 0
    (game, addPlayerXp objects gained_xp, .UsedUp)

/-- `fn use_item`: dispatch on the item tag, then consume / cancel / keep. -/
def use_item (inventory_id : Nat) (tcod : Tcod) (game : Game)
    (objects : List Object) : Game × List Object :=
  match (game.inventory.get? inventory_id).bind (fun o => o.item) with
  | some item =>
    let (game, objects, result) :=
      match item with
      | .Heal => cast_heal game objects
      | .Lightning => cast_lightning tcod game objects
      | .Confusion => cast_confusion tcod game objects
      | .Fireball => cast_fireball tcod game objects
      | .Sword => let (g, r) := toggle_equipment inventory_id game; (g, objects, r)
      | .Shield => let (g, r) := toggle_equipment inventory_id game; (g, objects, r)
    match result with
    | .UsedUp => ({ game with inventory := game.inventory.eraseIdx inventory_id }, objects)
    | .Cancelled => (game.addMessage "Cancelled" "WHITE", objects)
    | .UsedAndKept => (game, objects)
  | none =>
    (game.addMessage ((game.inventory.getD inventory_id default).name ++ " cannot be used")
      "WHITE", objects)

/-- `fn drop_item`. -/
def drop_item (inventory_id : Nat) (game : Game) (objects : List Object) :
    Game × List Object :=
  match game.inventory.get? inventory_id with
  | none => (game, objects)
  | some item =>
    let game := { game with inventory := game.inventory.eraseIdx inventory_id }
    let (item, msgs) :=
      if item.equipment.isSome then item.dequip game.messages else (item, game.messages)
    let game := { game with messages := msgs }
    let p := objects.getD PLAYER default
    let item := item.set_pos p.x p.y
    let game := game.addMessage ("Yout dropped " ++ item.name) "LIGHT_GREY"
    (game, objects ++ [item])

/-- `map[x][y]`, with out-of-range reads giving a wall (any in-range read
coincides with the source, which would panic out of range). -/
def getTile (m : GameMap) (x y : Int) : Tile :=
  (m.getD x.toNat []).getD y.toNat Tile.wall

/-- `map[x][y] = t`, with out-of-range writes dropped (the source would
panic; all embedded writes are proven in range). -/
def setTile (m : GameMap) (x y : Int) (t : Tile) : GameMap :=
  m.set x.toNat ((m.getD x.toNat []).set y.toNat t)

/-- `fn is_blocked`. -/
def is_blocked (x y : Int) (map : GameMap) (objects : List Object) : Bool :=
  if (getTile map x y).blocked then true
  else objects.any (fun o => o.blocks && o.x == x && o.y == y)

/-- `fn move_by`. -/
def move_by (id : Nat) (dx dy : Int) (map : GameMap) (objects : List Object) :
    List Object :=
  match objects.get? id with
  | none => objects
  | some o =>
    if !is_blocked (o.x + dx) (o.y + dy) map objects then
      objects.set id (o.set_pos (o.x + dx) (o.y + dy))
    else objects

/-- One component of the normalized-and-rounded step of `move_towards`.
The source computes `(dx as f64 / dist).round()` with
`dist = sqrt(dx*dx + dy*dy)`.  Since `|dx| ≤ sqrt s`, the exact value of
`|dx| / sqrt s + 1/2` lies in `[1/2, 3/2]`, so the rounded result is `0`
or `±1`, and it is `±1` exactly when `4*dx*dx ≥ s`.  A tie
(`4*dx*dx = s`) would force `dy*dy = 3*dx*dx`, impossible for nonzero
integers, and the f64 rounding error (relative error below `2^-50`) is
far smaller than the distance of `dx / sqrt s` from `1/2`
(at least `1 / (6*s)` with `s < 2^13`), so this integer branch reproduces
the floating-point computation exactly on every reachable input. -/
def stepComponent (dx s : Int) : Int :=
  if 4 * dx * dx ≥ s then (if dx > 0 then 1 else if dx < 0 then -1 else 0) else 0

/-- `fn move_towards`. -/
def move_towards (id : Nat) (target_x target_y : Int) (map : GameMap)
    (objects : List Object) : List Object :=
  match objects.get? id with
  | none => objects
  | some o =>
    let dx := target_x - o.x
    let dy := target_y - o.y
    let s := dx * dx + dy * dy
    move_by id (stepComponent dx s) (stepComponent dy s) map objects

/-- `fn ai_basic`: chase the player while at f32 distance `≥ 2.0`
(squared: `≥ 4`), attack when adjacent and the player is alive.  Returns
the updated objects, game and the next `Ai` state.  The source's
`mut_two` assertion requires `monster_id ≠ PLAYER`; theorems carry that
hypothesis. -/
def ai_basic (monster_id : Nat) (tcod : Tcod) (game : Game)
    (objects : List Object) : List Object × Game × Ai :=
  match objects.get? monster_id, objects.get? PLAYER with
  | some monster, some player =>
    if tcod.fov monster.x monster.y then
      if monster.distSqTo player ≥ 4 then
        (move_towards monster_id player.x player.y game.map objects, game, .Basic)
      else if player.fighter.elim false (fun f => f.hp > 0) then
        let (monster, player, game) := monster.attack player game
        ((objects.set monster_id monster).set PLAYER player, game, .Basic)
      else (objects, game, .Basic)
    else (objects, game, .Basic)
  | _, _ => (objects, game, .Basic)

/-- A pre-drawn stream of `rand::thread_rng` values; ranging over all
streams ranges over all RNG outcomes.  An exhausted stream keeps
producing `0`. -/
abbrev Rng := List Nat

/-- `gen_range(lo, hi)`: next value mapped into `[lo, hi)`.  All embedded
call sites have `lo < hi`, so the `% (hi - lo)` is well defined. -/
def genRange (lo hi : Int) (r : Rng) : Int × Rng :=
  (lo + Int.ofNat (r.headD 0 % (hi - lo).toNat), r.tail)

/-- `rand::random::<bool>()`. -/
def randBool (r : Rng) : Bool × Rng :=
  (r.headD 0 % 2 == 0, r.tail)

/-- `struct Rect`. -/
structure Rect where
  x1 : Int
  y1 : Int
  x2 : Int
  y2 : Int
deriving DecidableEq, Repr

instance : Inhabited Rect := ⟨⟨0, 0, 0, 0⟩⟩

/-- `Rect::new`. -/
def Rect.new (x y width height : Int) : Rect :=
  { x1 := x, y1 := y, x2 := x + width, y2 := y + height }

/-- `Rect::center`.  The source divides `i32` (truncating); every room the
generator builds has nonnegative coordinates, where division on `Int`
agrees with truncation. -/
def Rect.center (r : Rect) : Int × Int :=
  ((r.x1 + r.x2) / 2, (r.y1 + r.y2) / 2)

/-- `Rect::intersect`: inclusive-bounds overlap test. -/
def Rect.intersect (r other : Rect) : Bool :=
  decide (r.x1 ≤ other.x2) && decide (r.x2 ≥ other.x1) &&
    decide (r.y1 ≤ other.y2) && decide (r.y2 ≥ other.y1)

/-- The inclusive integer range `[lo, hi]` as a list. -/
def intRange (lo hi : Int) : List Int :=
  (List.range (hi + 1 - lo).toNat).map (fun i => lo + Int.ofNat i)

/-- The half-open integer range `[lo, hi)` as a list. -/
def intRangeEx (lo hi : Int) : List Int :=
  (List.range (hi - lo).toNat).map (fun i => lo + Int.ofNat i)

/-- `fn create_h_tunnel`: carve `[min x1 x2, max x1 x2] × {y}`. -/
def create_h_tunnel (x1 x2 y : Int) (map : GameMap) : GameMap :=
  (intRange (min x1 x2) (max x1 x2)).foldl (fun m x => setTile m x y Tile.empty) map

/-- `fn create_v_tunnel`: carve `{x} × [min y1 y2, max y1 y2]`. -/
def create_v_tunnel (y1 y2 x : Int) (map : GameMap) : GameMap :=
  (intRange (min y1 y2) (max y1 y2)).foldl (fun m y => setTile m x y Tile.empty) map

/-- `fn create_room`: carve the interior `(x1, x2) × (y1, y2)` (exclusive
bounds, leaving a one-tile border). -/
def create_room (room : Rect) (map : GameMap) : GameMap :=
  (intRangeEx (room.x1 + 1) room.x2).foldl
    (fun m x =>
      (intRangeEx (room.y1 + 1) room.y2).foldl (fun m2 y => setTile m2 x y Tile.empty) m)
    map

/-- `struct Transition`. -/
structure Transition where
  level : Nat
  value : Nat

/-- `fn from_dungeon_level`: value of the highest threshold at most
`level` (the source scans the table reversed). -/
def from_dungeon_level (table : List Transition) (level : Nat) : Nat :=
  ((table.reverse.find? (fun t => t.level ≤ level)).map (fun t => t.value)).getD 0

/-- The goblin monster built in `place_objects`. -/
def mkGoblin (x y : Int) : Object :=
  { Object.new x y 'g' "goblin" "DESATURATED_GREEN" true with
    fighter := some { base_max_hp := 10, hp := 10, base_defense := 0,
                      base_power := 3, xp := 25, on_death := .Monster },
    ai := some .Basic }

/-- The orc monster built in `place_objects`. -/
def mkOrc (x y : Int) : Object :=
  { Object.new x y 'o' "orc" "DARKER_GREEN" true with
    fighter := some { base_max_hp := 15, hp := 15, base_defense := 1,
                      base_power := 5, xp := 80, on_death := .Monster },
    ai := some .Basic }

/-- The item object built in `place_objects` for a weighted draw `c` in
`[0, 100 + sword_w + shield_w)` (cumulative weights 70 / 10 / 10 / 10 /
sword_w / shield_w, exactly the `WeightedChoice` walk). -/
def itemFor (c sword_w : Int) (x y : Int) : Object :=
  if c < 70 then
    { Object.new x y '!' "healing potion" "VIOLET" false with item := some .Heal }
  else if c < 80 then
    { Object.new x y '#' "fireball scroll" "ORANGE" false with item := some .Fireball }
  else if c < 90 then
    { Object.new x y '#' "lightning scroll" "LIGHT_YELLOW" false with
      item := some .Lightning }
  else if c < 100 then
    { Object.new x y '#' "confusion scroll" "LIGHT_YELLOW" false with
      item := some .Confusion }
  else if c < 100 + sword_w then
    { Object.new x y '/' "sword" "SKY" false with
      item := some .Sword,
      equipment := some { slot := .RightHand, equipped := false, power_bonus := 5,
                          defense_bonus := 0, max_hp_bonus := 0 } }
  else
    { Object.new x y '0' "shield" "SKY" false with
      item := some .Shield,
      equipment := some { slot := .LeftHand, equipped := false, power_bonus := 0,
                          defense_bonus := 5, max_hp_bonus := 4 } }

/-- The monster-placement loop of `place_objects` (`num_monsters`
iterations; a blocked spot is skipped without drawing a monster kind). -/
def place_monsters : Nat → Rect → GameMap → List Object → Rng → List Object × Rng
  | 0, _, _, objects, r => (objects, r)
  | n + 1, room, map, objects, r =>
    let (x, r) := genRange (room.x1 + 1) room.x2 r
    let (y, r) := genRange (room.y1 + 1) room.y2 r
    if !is_blocked x y map objects then
      let (c, r) := genRange 0 100 r
      let monster := if c < 80 then mkGoblin x y else mkOrc x y
      let monster := { monster with alive := true }
      place_monsters n room map (objects ++ [monster]) r
    else place_monsters n room map objects r

/-- The item-placement loop of `place_objects`. -/
def place_items : Nat → Rect → GameMap → List Object → Nat → Rng → List Object × Rng
  | 0, _, _, objects, _, r => (objects, r)
  | n + 1, room, map, objects, level, r =>
    let (x, r) := genRange (room.x1 + 1) room.x2 r
    let (y, r) := genRange (room.y1 + 1) room.y2 r
    if !is_blocked x y map objects then
      let sword_w := Int.ofNat (from_dungeon_level [⟨4, 5⟩] level)
      let shield_w := Int.ofNat (from_dungeon_level [⟨8, 15⟩] level)
      let (c, r) := genRange 0 (100 + sword_w + shield_w) r
      place_items n room map (objects ++ [itemFor c sword_w x y]) level r
    else place_items n room map objects level r

/-- `fn place_objects`. -/
def place_objects (room : Rect) (map : GameMap) (objects : List Object)
    (level : Nat) (r : Rng) : List Object × Rng :=
  let max_monsters := from_dungeon_level [⟨1, 2⟩, ⟨4, 3⟩, ⟨6, 5⟩] level
  let (num_monsters, r) := genRange 0 (Int.ofNat max_monsters + 1) r
  let (objects, r) := place_monsters num_monsters.toNat room map objects r
  let max_items := from_dungeon_level [⟨1, 1⟩, ⟨4, 2⟩] level
  let (num_items, r) := genRange 0 (Int.ofNat max_items + 1) r
  place_items num_items.toNat room map objects level r

/-- `objects[i] = f(objects[i])` (in-place update used for the player). -/
def setAt (l : List Object) (i : Nat) (f : Object → Object) : List Object :=
  match l.get? i with
  | some o => l.set i (f o)
  | none => l

/-- The `for _ in 0..MAX_ROOMS` loop of `make_map`, threading the map, the
accepted rooms, the objects and the RNG stream. -/
def make_map_loop :
    Nat → GameMap → List Rect → List Object → Nat → Rng →
      GameMap × List Rect × List Object × Rng
  | 0, map, rooms, objects, _, r => (map, rooms, objects, r)
  | n + 1, map, rooms, objects, level, r =>
    let (w, r) := genRange ROOM_MIN_SIZE (ROOM_MAX_SIZE + 1) r
    let (h, r) := genRange ROOM_MIN_SIZE (ROOM_MAX_SIZE + 1) r
    let (x, r) := genRange 0 (MAP_WIDTH - w) r
    let (y, r) := genRange 0 (MAP_HEIGHT - h) r
    let new_room := Rect.new x y w h
    let failed := rooms.any (fun room => new_room.intersect room)
    if failed then make_map_loop n map rooms objects level r
    else
      let map := create_room new_room map
      let (objects, r) := place_objects new_room map objects level r
      let (new_x, new_y) := new_room.center
      if rooms.isEmpty then
        let objects := setAt objects PLAYER (fun o => o.set_pos new_x new_y)
        make_map_loop n map (rooms ++ [new_room]) objects level r
      else
        let (prev_x, prev_y) := (rooms.getLastD default).center
        let (coin, r) := randBool r
        let map :=
          if coin then
            create_v_tunnel prev_y new_y new_x (create_h_tunnel prev_x new_x prev_y map)
          else
            create_h_tunnel prev_x new_x new_y (create_v_tunnel prev_y new_y prev_x map)
        make_map_loop n map (rooms ++ [new_room]) objects level r

/-- The all-walls initial grid of `make_map`. -/
def initMap : GameMap :=
  List.replicate MAP_WIDTH.toNat (List.replicate MAP_HEIGHT.toNat Tile.wall)

/-- `fn make_map`: truncate the object list to the player, run the room
loop, append the stairs at the center of the last accepted room. -/
def make_map (objects : List Object) (level : Nat) (r : Rng) :
    GameMap × List Object :=
  let objects := objects.take 1
  let (map, rooms, objects, _) := make_map_loop MAX_ROOMS initMap [] objects level r
  let (last_room_x, last_room_y) := (rooms.getLastD default).center
  let stairs :=
    { Object.new last_room_x last_room_y '>' "stairs" "WHITE" false with
      always_visible := true }
  (map, objects ++ [stairs])

/-- The list of accepted rooms of a `make_map` run (the loop-local `rooms`
vector of the source, which is dropped when `make_map` returns). -/
def make_map_rooms (objects : List Object) (level : Nat) (r : Rng) : List Rect :=
  (make_map_loop MAX_ROOMS initMap [] (objects.take 1) level r).2.1

/-- The final map of a `make_map` run. -/
def make_map_grid (objects : List Object) (level : Nat) (r : Rng) : GameMap :=
  (make_map objects level r).1

/-- The candidate rectangle built from the first four RNG draws; the first
loop iteration of `make_map` always accepts exactly this room. -/
def firstCandidate (r : Rng) : Rect :=
  let (w, r) := genRange ROOM_MIN_SIZE (ROOM_MAX_SIZE + 1) r
  let (h, r) := genRange ROOM_MIN_SIZE (ROOM_MAX_SIZE + 1) r
  let (x, r) := genRange 0 (MAP_WIDTH - w) r
  let (y, _) := genRange 0 (MAP_HEIGHT - h) r
  Rect.new x y w h

/-! ### Derived definitions used in theorem statements.
These name intermediate quantities of the embedded code (per-object effect
of the fireball loop, accepted-room geometry, carving predicates); each is
read off the corresponding source loop. -/

/-- The effect of one `cast_fireball` loop iteration on one object (the
object component of `take_damage` does not depend on the game, which is
threaded only for messages). -/
def burnObject (x y : Int) (o : Object) (g : Game) : Object :=
  if fireballHit x y o then (o.take_damage FIRE_DAMAGE g).1 else o

/-- Add xp to an object carrying a fighter. -/
def addXpTo (o : Object) (xp : Int) : Object :=
  { o with fighter := o.fighter.map (fun f => { f with xp := f.xp + xp }) }

/-- The xp accumulated by the `cast_fireball` loop over the suffix of the
object list starting at index `idx`. -/
def fireballXpFrom (x y : Int) (g : Game) : Nat → List Object → Int
  | _, [] => 0
  | idx, o :: rest =>
    (if idx ≠ PLAYER ∧ fireballHit x y o = true then
      ((o.take_damage FIRE_DAMAGE g).2.2).getD 0
     else 0) + fireballXpFrom x y g (idx + 1) rest

/-- The xp `cast_fireball` credits to the player: summed kill rewards of
non-player indices. -/
def fireballXpGain (x y : Int) (g : Game) (objects : List Object) : Int :=
  fireballXpFrom x y g 0 objects

/-- Number of inventory objects equipped in `slot`. -/
def equippedCountIn (slot : Slot) (inv : List Object) : Nat :=
  (inv.filter (equippedInSlot slot)).length

/-- A room rectangle that lies inside the grid; every candidate the
generator draws satisfies this by construction of its `gen_range` calls. -/
def roomInB (room : Rect) : Prop :=
  0 ≤ room.x1 ∧ room.x1 ≤ room.x2 ∧ room.x2 < MAP_WIDTH ∧
    0 ≤ room.y1 ∧ room.y1 ≤ room.y2 ∧ room.y2 < MAP_HEIGHT

/-- Well-formed grid: `MAP_WIDTH` columns of height `MAP_HEIGHT`. -/
def mapWF (m : GameMap) : Prop :=
  m.length = MAP_WIDTH.toNat ∧ ∀ col ∈ m, col.length = MAP_HEIGHT.toNat

/-- A map transformation that never blocks a tile (it only carves). -/
def carvesOnly (f : GameMap → GameMap) : Prop :=
  ∀ m x y, (getTile (f m) x y).blocked = true → (getTile m x y).blocked = true

/-- The tile at `p` is walkable. -/
def tileFree (m : GameMap) (p : Int × Int) : Prop :=
  (getTile m p.1 p.2).blocked = false

/-- The tiles of the horizontal-then-vertical L-corridor from `a` to `b`
(the `rand::random()`-true branch of `make_map`). -/
def hvPath (a b : Int × Int) : List (Int × Int) :=
  (intRange (min a.1 b.1) (max a.1 b.1)).map (fun x => (x, a.2)) ++
    (intRange (min a.2 b.2) (max a.2 b.2)).map (fun y => (b.1, y))

/-- The tiles of the vertical-then-horizontal L-corridor from `a` to `b`
(the `rand::random()`-false branch of `make_map`). -/
def vhPath (a b : Int × Int) : List (Int × Int) :=
  (intRange (min a.2 b.2) (max a.2 b.2)).map (fun y => (a.1, y)) ++
    (intRange (min a.1 b.1) (max a.1 b.1)).map (fun x => (x, b.2))

/-- One of the two L-corridors between `a` and `b` is fully carved in `m`. -/
def corridorCarved (m : GameMap) (a b : Int × Int) : Prop :=
  (∀ p ∈ hvPath a b, tileFree m p) ∨ (∀ p ∈ vhPath a b, tileFree m p)

/-! ### Concrete fixtures used by counterexamples and witnesses. -/

/-- An empty game state. -/
def fxGame : Game := { map := [], messages := [], inventory := [], dungeon_level := 1 }

/-- A live player with 1 hp and a 100 xp bounty. -/
def fxPlayer : Object :=
  { Object.new 5 5 '@' "player" "WHITE" true with
    alive := true,
    fighter := some { base_max_hp := 30, hp := 1, base_defense := 0,
                      base_power := 2, xp := 100, on_death := .Player } }

/-- A live goblin as placed by the generator. -/
def fxGoblin : Object := { mkGoblin 3 3 with alive := true }

/-- The goblin corpse left by a lethal `take_damage`. -/
def fxRemains : Object := (fxGoblin.take_damage 30 fxGame).1

/-- An equipped shield inventory object (as built by `place_objects`,
with `equipped` flipped on). -/
def fxShieldOn : Object :=
  { itemFor 119 0 0 0 with
    equipment := some { slot := .LeftHand, equipped := true, power_bonus := 0,
                        defense_bonus := 5, max_hp_bonus := 4 } }

/-- A player whose hp (14) equals base max hp (10) plus the shield bonus. -/
def fxHero : Object :=
  { Object.new 0 0 '@' "player" "WHITE" true with
    alive := true,
    fighter := some { base_max_hp := 10, hp := 14, base_defense := 0,
                      base_power := 2, xp := 0, on_death := .Player } }

/-- Game whose inventory holds the equipped shield. -/
def fxShieldGame : Game :=
  { map := [], messages := [], inventory := [fxShieldOn], dungeon_level := 1 }

/-- `fxShieldGame` after toggling the shield: the shield is dequipped and
nothing re-clamps the hp of `fxHero`. -/
def fxDequipGame : Game := (toggle_equipment 0 fxShieldGame).1

/-- An all-seeing `Tcod` with no targeting choices pending. -/
def fxTcod : Tcod := { fov := fun _ _ => true, tile_target := none, monster_target := none }

/-- Grid with floor carved at the player spot (0,0) and the monster spot
(3,1) only; the step destination (2,1) of `move_towards` remains a wall. -/
def fxMapWalled : GameMap := setTile (setTile initMap 0 0 Tile.empty) 3 1 Tile.empty

/-- `fxMapWalled` with the step destination (2,1) also carved. -/
def fxMapOpen : GameMap := setTile fxMapWalled 2 1 Tile.empty

/-- A player at the origin. -/
def fxPlayerAt0 : Object :=
  { Object.new 0 0 '@' "player" "WHITE" true with
    alive := true,
    fighter := some { base_max_hp := 30, hp := 30, base_defense := 0,
                      base_power := 5, xp := 0, on_death := .Player } }

/-- A live goblin at (3,1): squared distance 10 to the origin, i.e. f32
distance `sqrt 10 = 3.16...`, the distance the spec rounds to `3.2`. -/
def fxGoblinFar : Object := { mkGoblin 3 1 with alive := true }

/-- A live goblin at (1,0): distance 1.0 to the origin. -/
def fxGoblinAdj : Object := { mkGoblin 1 0 with alive := true }

/-- Game over the walled grid. -/
def fxGameWalled : Game :=
  { map := fxMapWalled, messages := [], inventory := [], dungeon_level := 1 }

/-- Game over the open grid. -/
def fxGameOpen : Game :=
  { map := fxMapOpen, messages := [], inventory := [], dungeon_level := 1 }

/-- A fireball scroll as built by the generator. -/
def fxScroll : Object := itemFor 75 0 4 4

/-- A healing potion as built by the generator. -/
def fxPotion : Object := itemFor 0 0 4 4

/-- An RNG stream that makes `make_map` accept exactly two rooms,
`(0,0)-(6,6)` and `(20,0)-(26,6)`, with no monsters or items. -/
def fxRng : Rng := [0, 0, 0, 0, 0, 0, 0, 0, 20, 0, 0, 0, 0]

/-- Game whose inventory holds one healing potion. -/
def fxPotionGame : Game :=
  { map := [], messages := [], inventory := [fxPotion], dungeon_level := 1 }

/-- Game whose inventory holds one fireball scroll. -/
def fxScrollGame : Game :=
  { map := [], messages := [], inventory := [fxScroll], dungeon_level := 1 }

/-- `fxTcod` with a confirmed fireball tile at the origin. -/
def fxTcodAt0 : Tcod :=
  { fov := fun _ _ => true, tile_target := some (0, 0), monster_target := none }


/-- An equipped sword inventory object (generator sword, `equipped` on). -/
def fxSwordOn : Object :=
  { itemFor 100 5 1 1 with
    equipment := some { slot := .RightHand, equipped := true, power_bonus := 5,
                        defense_bonus := 0, max_hp_bonus := 0 } }

/-- A second, unequipped sword. -/
def fxSwordOff : Object := itemFor 100 5 2 2

/-- Game whose inventory holds the equipped sword at 0 and the unequipped
sword at 1 (both in the right-hand slot). -/
def fxTwoSwordGame : Game :=
  { map := [], messages := [], inventory := [fxSwordOn, fxSwordOff], dungeon_level := 1 }


/-- A live goblin at (1,1), inside the fireball radius of the origin. -/
def fxGoblinNear : Object := { mkGoblin 1 1 with alive := true }

/-- A live orc at (2,0), inside the fireball radius of the origin. -/
def fxOrcNear : Object := { mkOrc 2 0 with alive := true }

/-! ### Helper lemmas. -/

theorem Game.inventory_addMessage (g : Game) (s : String) (c : Color) :
    (g.addMessage s c).inventory = g.inventory := rfl

theorem Object.max_hp_addMessage (o : Object) (g : Game) (s : String) (c : Color) :
    o.max_hp (g.addMessage s c) = o.max_hp g := rfl

/-- `Object::heal` written with `min`. -/
theorem Object.heal_eq_min (o : Object) (g : Game) (amount : Int) (f : Fighter)
    (hf : o.fighter = some f) :
    o.heal amount g =
      { o with fighter := some { f with hp := min (f.hp + amount) (o.max_hp g) } } := by
  unfold Object.heal
  rw [hf]
  dsimp only
  split
  next h =>
    have hmin : min (f.hp + amount) (o.max_hp g) = o.max_hp g := by omega
    rw [hmin]
  next h =>
    have hmin : min (f.hp + amount) (o.max_hp g) = f.hp + amount := by omega
    rw [hmin]

/-! ### C1 -/

/-- C1 counterexample: the claim says a `take_damage` call after the
entity is already dead returns `None` and does not fire the death
callback again.  For the player this is false: `player_death` leaves the
`Fighter` in place, so after a lethal hit (first call, returning
`Some 100` and logging the death message) a second call returns
`Some 100` again and logs the death message a second time (`alive` does
stay `false`). -/
theorem take_damage_player_repeats :
    (fxPlayer.take_damage 6 fxGame).2.2 = some 100 ∧
    (fxPlayer.take_damage 6 fxGame).1.alive = false ∧
    ((fxPlayer.take_damage 6 fxGame).1.take_damage 3
        (fxPlayer.take_damage 6 fxGame).2.1).2.2 = some 100 ∧
    ((fxPlayer.take_damage 6 fxGame).1.take_damage 3
        (fxPlayer.take_damage 6 fxGame).2.1).2.1.messages.count
      ("Your history ends here", "RED") = 2 := by decide

/-- C1 (amended): `take_damage` never resurrects (`alive` stays `false`
across any call), and death is idempotent exactly for entities whose
death callback is `Monster`: a lethal call strips the `Fighter`, and
`take_damage` on a fighterless object is a complete no-op returning
`None`.  (For the player the callback keeps the `Fighter`, so later calls
return `Some(xp)` again and re-fire the callback — see the
counterexample.) -/
theorem callback_alive_false (cb : DeathCallback) (o : Object) (g : Game)
    (h : o.alive = false) : (cb.callback o g).1.alive = false := by
  cases cb <;> simp [DeathCallback.callback, player_death, monster_death, h]

theorem take_damage_dead_monster_idempotent (o : Object) (d : Int) (g : Game) :
    (o.fighter = none → o.take_damage d g = (o, g, none)) ∧
    (o.alive = false → (o.take_damage d g).1.alive = false) ∧
    (∀ f, o.fighter = some f → f.on_death = .Monster →
      ∀ xp, (o.take_damage d g).2.2 = some xp →
        (o.take_damage d g).1.fighter = none ∧ (o.take_damage d g).1.alive = false) := by
  refine ⟨fun h => by simp [Object.take_damage, h], ?_, ?_⟩
  · intro halive
    unfold Object.take_damage
    cases hf : o.fighter with
    | none => simpa [hf] using halive
    | some f =>
      by_cases hd : d > 0
      · by_cases hhp : f.hp - d ≤ 0
        · simp only [hf, hd, ite_true, hhp]
          exact callback_alive_false _ _ _ rfl
        · simp only [hf, hd, ite_true, hhp, ite_false]
          exact halive
      · by_cases hhp : f.hp ≤ 0
        · simp only [hf, hd, ite_false, hhp, ite_true]
          exact callback_alive_false _ _ _ rfl
        · simp only [hf, hd, ite_false, hhp]
          exact halive
  · intro f hf hcb xp hxp
    unfold Object.take_damage at hxp ⊢
    by_cases hd : d > 0
    · by_cases hhp : f.hp - d ≤ 0
      · simp only [hf, hd, ite_true, hhp, hcb] at hxp ⊢
        constructor <;> simp [DeathCallback.callback, monster_death]
      · simp only [hf, hd, ite_true, hhp, ite_false] at hxp
        exact absurd hxp (by simp)
    · by_cases hhp : f.hp ≤ 0
      · simp only [hf, hd, ite_false, hhp, ite_true, hcb] at hxp ⊢
        constructor <;> simp [DeathCallback.callback, monster_death]
      · simp only [hf, hd, ite_false, hhp] at hxp
        exact absurd hxp (by simp)

/-- C1 witness: the goblin corpse has no `Fighter`; `take_damage` on it is
a no-op returning `None`; a lethal hit on the live goblin (callback
`Monster`) indeed strips the `Fighter`. -/
theorem take_damage_dead_monster_idempotent_witness :
    fxRemains.fighter = none ∧
    fxRemains.take_damage 5 fxGame = (fxRemains, fxGame, none) ∧
    (fxGoblin.take_damage 30 fxGame).1.fighter = none ∧
    (fxGoblin.take_damage 30 fxGame).1.alive = false :=
  ⟨by decide,
   (take_damage_dead_monster_idempotent fxRemains 5 fxGame).1 (by decide),
   ((take_damage_dead_monster_idempotent fxGoblin 30 fxGame).2.2
      { base_max_hp := 10, hp := 10, base_defense := 0, base_power := 3, xp := 25,
        on_death := .Monster } rfl rfl 25 (by decide)).1,
   ((take_damage_dead_monster_idempotent fxGoblin 30 fxGame).2.2
      { base_max_hp := 10, hp := 10, base_defense := 0, base_power := 3, xp := 25,
        on_death := .Monster } rfl rfl 25 (by decide)).2⟩

/-! ### C10 -/

/-- C10: `heal` sets hp to `min (hp + amount) (effective max_hp)` for any
entity with a `Fighter` and is a no-op without one; and hp above the
effective max is reachable, because `toggle_equipment` (dequip) does not
re-clamp: the concrete hero has hp 14 with max 14 while the shield is
equipped, still hp 14 with max 10 after the toggle dequips it, and `heal`
then strictly decreases hp to the effective max 10. -/
theorem heal_min_and_overheal :
    (∀ (o : Object) (g : Game) (amount : Int) (f : Fighter),
      o.fighter = some f → 0 ≤ amount →
        o.heal amount g =
          { o with fighter := some { f with hp := min (f.hp + amount) (o.max_hp g) } }) ∧
    (∀ (o : Object) (g : Game) (amount : Int), o.fighter = none → o.heal amount g = o) ∧
    (fxHero.max_hp fxShieldGame = 14 ∧
      fxHero.fighter.map (fun f => f.hp) = some 14 ∧
      fxHero.max_hp fxDequipGame = 10 ∧
      (fxHero.heal 5 fxDequipGame).fighter.map (fun f => f.hp) = some 10) := by
  refine ⟨fun o g amount f hf _ => Object.heal_eq_min o g amount f hf,
    fun o g amount hf => by simp [Object.heal, hf], by decide⟩

/-- C10 witness: the clamping part applied to the concrete hero healing 5
over the dequipped game (max 10): hp becomes `min (14 + 5) 10`. -/
theorem heal_min_and_overheal_witness :
    fxHero.heal 5 fxDequipGame =
      { fxHero with
        fighter := some
          { base_max_hp := 10, hp := min (14 + 5) (fxHero.max_hp fxDequipGame),
            base_defense := 0, base_power := 2, xp := 0, on_death := .Player } } :=
  heal_min_and_overheal.1 fxHero fxDequipGame 5
    { base_max_hp := 10, hp := 14, base_defense := 0, base_power := 2, xp := 0,
      on_death := .Player } rfl (by decide)

/-! ### C7 -/

/-- C7: using a Heal item when the player's hp equals the effective max
logs a message, changes nothing else, and keeps the item (`Cancelled`);
otherwise it heals by `HEAL_AMOUNT` clamped to the effective max and
removes the item from the inventory (`UsedUp`). -/
theorem use_heal_item_spec (tcod : Tcod) (g : Game) (objects : List Object)
    (id : Nat) (p : Object) (f : Fighter)
    (hp0 : objects.get? PLAYER = some p) (hf : p.fighter = some f)
    (hitem : (g.inventory.get? id).bind (fun o => o.item) = some Item.Heal) :
    (f.hp = p.max_hp g →
      use_item id tcod g objects =
        ((g.addMessage "HP is already full" "WHITE").addMessage "Cancelled" "WHITE",
          objects)) ∧
    (f.hp ≠ p.max_hp g →
      use_item id tcod g objects =
        ({ g.addMessage "Your wounds heal" "LIGHT_VIOLET" with
            inventory := g.inventory.eraseIdx id },
          objects.set PLAYER
            { p with
              fighter := some { f with hp := min (f.hp + HEAL_AMOUNT) (p.max_hp g) } })) := by
  have hgetD : objects.getD PLAYER default = p := by
    simp [List.getD_eq_getElem?_getD, ← List.get?_eq_getElem?, hp0]
  constructor
  · intro hfull
    simp only [use_item, hitem, cast_heal, hp0, Option.some_bind, hf, hgetD,
      Object.max_hp_addMessage, hfull, beq_self_eq_true, ite_true]
  · intro hnotfull
    have hbeq : (f.hp == p.max_hp g) = false := by
      simpa using hnotfull
    simp only [use_item, hitem, cast_heal, hp0, Option.some_bind, hf, hgetD,
      Object.max_hp_addMessage, hbeq, Bool.false_eq_true, ite_false]
    rw [Object.heal_eq_min p _ HEAL_AMOUNT f hf, Object.max_hp_addMessage]
    simp [Game.inventory_addMessage]

/-- C7 witness: the hero (hp 14, effective max 10 with only a potion in
the inventory) is not at full hp, so the potion is consumed and hp is
clamped down to the max. -/
theorem use_heal_item_spec_witness :
    use_item 0 fxTcod fxPotionGame [fxHero] =
      ({ fxPotionGame.addMessage "Your wounds heal" "LIGHT_VIOLET" with
          inventory := fxPotionGame.inventory.eraseIdx 0 },
        [fxHero].set PLAYER
          { fxHero with
            fighter := some
              { base_max_hp := 10,
                hp := min (14 + HEAL_AMOUNT) (fxHero.max_hp fxPotionGame),
                base_defense := 0, base_power := 2, xp := 0, on_death := .Player } }) :=
  (use_heal_item_spec fxTcod fxPotionGame [fxHero] 0 fxHero
    { base_max_hp := 10, hp := 14, base_defense := 0, base_power := 2, xp := 0,
      on_death := .Player } rfl rfl rfl).2 (by decide)

/-! ### C4: helper lemmas about slot lookup, equip/dequip, and counting. -/

theorem getD_set_self_obj (l : List Object) (i : Nat) (a : Object)
    (h : i < l.length) : (l.set i a).getD i default = a := by
  simp [List.getD_eq_getElem?_getD, List.getElem?_set_self h]

theorem getD_set_ne_obj (l : List Object) (i j : Nat) (a : Object)
    (h : i ≠ j) : (l.set i a).getD j default = l.getD j default := by
  simp [List.getD_eq_getElem?_getD, List.getElem?_set_ne h]

theorem ges_eq_none_iff (slot : Slot) (l : List Object) :
    get_equipped_in_slot slot l = none ↔
      ∀ o ∈ l, equippedInSlot slot o = false := by
  induction l with
  | nil => simp [get_equipped_in_slot]
  | cons o t ih =>
    by_cases h : equippedInSlot slot o = true
    · simp [get_equipped_in_slot, h]
    · have h' : equippedInSlot slot o = false := by simpa using h
      simp only [get_equipped_in_slot, h', Bool.false_eq_true, ite_false,
        List.mem_cons]
      constructor
      · intro hmap x hx
        rcases hx with rfl | hx
        · exact h'
        · rcases hmo : get_equipped_in_slot slot t with _ | i
          · exact (ih.mp hmo) x hx
          · rw [hmo] at hmap; simp at hmap
      · intro hall
        have hnone : get_equipped_in_slot slot t = none :=
          ih.mpr (fun x hx => hall x (Or.inr hx))
        simp [hnone]

theorem ges_eq_some (slot : Slot) (l : List Object) (i : Nat)
    (h : get_equipped_in_slot slot l = some i) :
    i < l.length ∧ equippedInSlot slot (l.getD i default) = true := by
  induction l generalizing i with
  | nil => simp [get_equipped_in_slot] at h
  | cons o t ih =>
    by_cases hm : equippedInSlot slot o = true
    · simp only [get_equipped_in_slot, hm, ite_true] at h
      cases Option.some.inj h
      exact ⟨by simp, by simpa [List.getD_cons_zero] using hm⟩
    · have hm' : equippedInSlot slot o = false := by simpa using hm
      simp only [get_equipped_in_slot, hm', Bool.false_eq_true, ite_false] at h
      cases hmo : get_equipped_in_slot slot t with
      | none => rw [hmo] at h; simp at h
      | some j =>
        rw [hmo, Option.map_some'] at h
        cases Option.some.inj h
        rcases ih j hmo with ⟨hlt, hmt⟩
        exact ⟨by simpa using Nat.succ_lt_succ hlt,
          by simpa [List.getD_cons_succ] using hmt⟩

/-- At most one index of `l` is equipped in `s`. -/
def atMostOneIn (s : Slot) (l : List Object) : Prop :=
  ∀ i j, i < l.length → j < l.length →
    equippedInSlot s (l.getD i default) = true →
    equippedInSlot s (l.getD j default) = true → i = j

theorem count_le_one_iff (p : Object → Bool) (l : List Object) :
    (l.filter p).length ≤ 1 ↔
      (∀ i j, i < l.length → j < l.length →
        p (l.getD i default) = true → p (l.getD j default) = true → i = j) := by
  induction l with
  | nil => simp
  | cons o t ih =>
    rw [List.filter_cons]
    by_cases hp : p o = true
    · rw [if_pos hp]
      simp only [List.length_cons]
      constructor
      · intro hle i j hi hj hpi hpj
        have hnil : ∀ x ∈ t, ¬ p x = true :=
          List.filter_eq_nil_iff.mp (List.length_eq_zero.mp (by omega))
        have hz : ∀ k, k < t.length → ¬ p (t.getD k default) = true := by
          intro k hk hpk
          refine hnil _ ?_ hpk
          rw [List.getD_eq_getElem _ _ hk]
          exact List.getElem_mem hk
        match i, j with
        | 0, 0 => rfl
        | 0, j + 1 =>
          exact absurd (by simpa [List.getD_cons_succ] using hpj)
            (hz j (by simpa using hj))
        | i + 1, 0 =>
          exact absurd (by simpa [List.getD_cons_succ] using hpi)
            (hz i (by simpa using hi))
        | i + 1, j + 1 =>
          exact absurd (by simpa [List.getD_cons_succ] using hpi)
            (hz i (by simpa using hi))
      · intro hpair
        have hzero : (t.filter p).length = 0 := by
          rw [List.length_eq_zero, List.filter_eq_nil_iff]
          intro x hx hpx
          rcases List.mem_iff_getElem.mp hx with ⟨k, hk, rfl⟩
          have h0 : p ((o :: t).getD 0 default) = true := by
            simpa [List.getD_cons_zero] using hp
          have hk1 : p ((o :: t).getD (k + 1) default) = true := by
            rw [List.getD_cons_succ, List.getD_eq_getElem t default hk]
            exact hpx
          have := hpair 0 (k + 1) (by simp) (by simpa using Nat.succ_lt_succ hk) h0 hk1
          simp at this
        omega
    · have hp' : p o = false := by simpa using hp
      rw [if_neg hp, ih]
      constructor
      · intro hpair i j hi hj hpi hpj
        match i, j with
        | 0, 0 => rfl
        | 0, j + 1 =>
          exact absurd (by simpa [List.getD_cons_zero] using hpi) hp
        | i + 1, 0 =>
          exact absurd (by simpa [List.getD_cons_zero] using hpj) hp
        | i + 1, j + 1 =>
          have := hpair i j (by simpa using hi) (by simpa using hj)
            (by simpa [List.getD_cons_succ] using hpi)
            (by simpa [List.getD_cons_succ] using hpj)
          omega
      · intro hpair i j hi hj hpi hpj
        have := hpair (i + 1) (j + 1) (by simpa using Nat.succ_lt_succ hi)
          (by simpa using Nat.succ_lt_succ hj)
          (by simpa [List.getD_cons_succ] using hpi)
          (by simpa [List.getD_cons_succ] using hpj)
        omega

theorem dequip_fst_equipped (o : Object) (e : Equipment) (msgs : Messages)
    (he : o.equipment = some e) (heq : e.equipped = true) :
    (o.dequip msgs).1 = { o with equipment := some { e with equipped := false } } := by
  unfold Object.dequip
  rw [he]
  simp [heq]

theorem dequip_fst_not_equipped (o : Object) (e : Equipment) (msgs : Messages)
    (he : o.equipment = some e) (heq : e.equipped = false) :
    (o.dequip msgs).1 = o := by
  unfold Object.dequip
  rw [he]
  simp [heq]

theorem equip_fst_no_item (o : Object) (msgs : Messages) (hi : o.item = none) :
    (o.equip msgs).1 = o := by
  unfold Object.equip
  simp [hi]

theorem equip_fst_item (o : Object) (e : Equipment) (msgs : Messages)
    (hi : o.item.isSome = true) (he : o.equipment = some e)
    (heq : e.equipped = false) :
    (o.equip msgs).1 = { o with equipment := some { e with equipped := true } } := by
  have hiN : o.item.isNone = false := by
    rcases Option.isSome_iff_exists.mp hi with ⟨a, ha⟩
    simp [ha]
  unfold Object.equip
  rw [he]
  simp [hiN, heq]

/-! ### C4 helper machinery (modifyInv and matcher analysis). -/

theorem modifyInv_eq_pair (l : List Object) (i : Nat)
    (f : Object → Messages → Object × Messages) (msgs : Messages) (o : Object)
    (ho : l.get? i = some o) :
    modifyInv l i f msgs = (l.set i (f o msgs).1, (f o msgs).2) := by
  unfold modifyInv
  rw [ho]

theorem get?_of_lt (l : List Object) (i : Nat) (h : i < l.length) :
    l.get? i = some (l.getD i default) := by
  rw [List.get?_eq_getElem?, List.getElem?_eq_getElem h, List.getD_eq_getElem _ _ h]

/-- Matcher analysis: setting index `id` to an object that is equipped at
most in `e.slot`, over a base where `c ≠ id` was dequipped, keeps at most
one equipped index per slot. -/
theorem pairProp_after_double_set (inv : List Object) (c id : Nat)
    (oc' o' : Object) (slot0 : Slot)
    (hid : id < inv.length) (hc : c < inv.length) (hcid : c ≠ id)
    (hpair : ∀ s : Slot, ∀ i j, i < inv.length → j < inv.length →
      equippedInSlot s (inv.getD i default) = true →
      equippedInSlot s (inv.getD j default) = true → i = j)
    (hmc : equippedInSlot slot0 (inv.getD c default) = true)
    (hoc' : ∀ s, equippedInSlot s oc' = false)
    (ho' : ∀ s, s ≠ slot0 → equippedInSlot s o' = false) :
    ∀ s : Slot, ∀ i j, i < ((inv.set c oc').set id o').length →
      j < ((inv.set c oc').set id o').length →
      equippedInSlot s (((inv.set c oc').set id o').getD i default) = true →
      equippedInSlot s (((inv.set c oc').set id o').getD j default) = true → i = j := by
  intro s i j hi hj hpi hpj
  simp only [List.length_set] at hi hj
  have hget : ∀ k, k ≠ id → k ≠ c →
      ((inv.set c oc').set id o').getD k default = inv.getD k default := by
    intro k hk1 hk2
    rw [getD_set_ne_obj _ _ _ _ (fun h => hk1 h.symm),
      getD_set_ne_obj _ _ _ _ (fun h => hk2 h.symm)]
  have hgetc : ((inv.set c oc').set id o').getD c default = oc' := by
    rw [getD_set_ne_obj _ _ _ _ (fun h => hcid h.symm),
      getD_set_self_obj _ _ _ hc]
  have hgetid : ((inv.set c oc').set id o').getD id default = o' := by
    rw [getD_set_self_obj _ _ _ (by simpa using hid)]
  have honly : ∀ k, k < inv.length →
      equippedInSlot s (((inv.set c oc').set id o').getD k default) = true →
      (k = id ∨ (s ≠ slot0 → False) → True) → k = id ∨ (k ≠ id ∧ k ≠ c) := by
    intro k hk hpk _
    by_cases h1 : k = id
    · exact Or.inl h1
    · by_cases h2 : k = c
      · subst h2; rw [hgetc, hoc'] at hpk; exact absurd hpk (by simp)
      · exact Or.inr ⟨h1, h2⟩
  by_cases hs : s = slot0
  · subst hs
    have key : ∀ k, k < inv.length →
        equippedInSlot s (((inv.set c oc').set id o').getD k default) = true →
        k = id := by
      intro k hk hpk
      rcases honly k hk hpk (fun _ => trivial) with h | ⟨h1, h2⟩
      · exact h
      · rw [hget k h1 h2] at hpk
        exact absurd (hpair s k c hk hc hpk hmc) h2
    rw [key i hi hpi, key j hj hpj]
  · have key : ∀ k, k < inv.length →
        equippedInSlot s (((inv.set c oc').set id o').getD k default) = true →
        k ≠ id ∧ k ≠ c := by
      intro k hk hpk
      rcases honly k hk hpk (fun _ => trivial) with h | h
      · subst h; rw [hgetid, ho' s hs] at hpk; exact absurd hpk (by simp)
      · exact h
    rcases key i hi hpi with ⟨hi1, hi2⟩
    rcases key j hj hpj with ⟨hj1, hj2⟩
    rw [hget i hi1 hi2] at hpi
    rw [hget j hj1 hj2] at hpj
    exact hpair s i j hi hj hpi hpj

/-- Matcher analysis for the single-set case (no prior holder in the slot). -/
theorem pairProp_after_set (inv : List Object) (id : Nat) (o' : Object)
    (slot0 : Slot) (hid : id < inv.length)
    (hpair : ∀ s : Slot, ∀ i j, i < inv.length → j < inv.length →
      equippedInSlot s (inv.getD i default) = true →
      equippedInSlot s (inv.getD j default) = true → i = j)
    (hnone : ∀ x ∈ inv, equippedInSlot slot0 x = false)
    (ho' : ∀ s, s ≠ slot0 → equippedInSlot s o' = false) :
    ∀ s : Slot, ∀ i j, i < (inv.set id o').length → j < (inv.set id o').length →
      equippedInSlot s ((inv.set id o').getD i default) = true →
      equippedInSlot s ((inv.set id o').getD j default) = true → i = j := by
  intro s i j hi hj hpi hpj
  simp only [List.length_set] at hi hj
  have hget : ∀ k, k ≠ id → (inv.set id o').getD k default = inv.getD k default :=
    fun k hk => getD_set_ne_obj _ _ _ _ (fun h => hk h.symm)
  by_cases hs : s = slot0
  · subst hs
    have key : ∀ k, k < inv.length →
        equippedInSlot s ((inv.set id o').getD k default) = true → k = id := by
      intro k hk hpk
      by_cases h1 : k = id
      · exact h1
      · exfalso
        rw [hget k h1] at hpk
        have hmem : inv.getD k default ∈ inv := by
          rw [List.getD_eq_getElem _ _ hk]; exact List.getElem_mem hk
        rw [hnone _ hmem] at hpk
        exact absurd hpk (by simp)
    rw [key i hi hpi, key j hj hpj]
  · have key : ∀ k, k < inv.length →
        equippedInSlot s ((inv.set id o').getD k default) = true → k ≠ id := by
      intro k hk hpk h1
      subst h1
      rw [getD_set_self_obj _ _ _ hk, ho' s hs] at hpk
      exact absurd hpk (by simp)
    rw [hget i (key i hi hpi)] at hpi
    rw [hget j (key j hj hpj)] at hpj
    exact hpair s i j hi hj hpi hpj


theorem pairProp_after_set_dequip (inv : List Object) (id : Nat) (o' : Object)
    (hpair : ∀ s : Slot, ∀ i j, i < inv.length → j < inv.length →
      equippedInSlot s (inv.getD i default) = true →
      equippedInSlot s (inv.getD j default) = true → i = j)
    (ho' : ∀ s, equippedInSlot s o' = false) :
    ∀ s : Slot, ∀ i j, i < (inv.set id o').length → j < (inv.set id o').length →
      equippedInSlot s ((inv.set id o').getD i default) = true →
      equippedInSlot s ((inv.set id o').getD j default) = true → i = j := by
  intro s i j hi hj hpi hpj
  simp only [List.length_set] at hi hj
  have key : ∀ k, k < inv.length →
      equippedInSlot s ((inv.set id o').getD k default) = true → k ≠ id := by
    intro k hk hpk h1
    subst h1
    rw [getD_set_self_obj _ _ _ hk, ho' s] at hpk
    exact absurd hpk (by simp)
  rw [getD_set_ne_obj _ _ _ _ (fun h => key i hi hpi h.symm)] at hpi
  rw [getD_set_ne_obj _ _ _ _ (fun h => key j hj hpj h.symm)] at hpj
  exact hpair s i j hi hj hpi hpj

/-! ### C4 -/

/-- C4: starting from any inventory with at most one equipped item per
slot, `toggle_equipment` leaves at most one equipped item in every slot;
and toggling an unequipped item whose slot is occupied by another item
dequips that occupant and equips the toggled item (when it has an Item
facet, which every real inventory object does). -/
theorem toggle_equipment_slot_exclusive (g : Game) (id : Nat)
    (hid : id < g.inventory.length)
    (hprior : ∀ s, equippedCountIn s g.inventory ≤ 1) :
    (∀ s, equippedCountIn s (toggle_equipment id g).1.inventory ≤ 1) ∧
    (∀ e j ej,
      (g.inventory.getD id default).equipment = some e → e.equipped = false →
      j < g.inventory.length → j ≠ id →
      (g.inventory.getD j default).equipment = some ej → ej.equipped = true →
      ej.slot = e.slot →
      ((toggle_equipment id g).1.inventory.getD j default).equipment =
          some { ej with equipped := false } ∧
        equippedInSlot e.slot ((toggle_equipment id g).1.inventory.getD id default) =
          (g.inventory.getD id default).item.isSome) := by
  have ho : g.inventory.get? id = some (g.inventory.getD id default) :=
    get?_of_lt _ _ hid
  have hpair : ∀ s : Slot, ∀ i j, i < g.inventory.length → j < g.inventory.length →
      equippedInSlot s (g.inventory.getD i default) = true →
      equippedInSlot s (g.inventory.getD j default) = true → i = j :=
    fun s => (count_le_one_iff (equippedInSlot s) g.inventory).mp (hprior s)
  rcases he : (g.inventory.getD id default).equipment with _ | e
  · -- the toggled object has no Equipment facet: Cancelled, no change
    have hres : toggle_equipment id g = (g, .Cancelled) := by
      unfold toggle_equipment
      rw [ho, Option.some_bind, he]
    rw [hres]
    refine ⟨hprior, ?_⟩
    intro e j ej h1 _ _ _ _ _ _
    exact absurd h1 (by simp)

  · have hd : (g.inventory.get? id).bind (fun o => o.equipment) = some e := by
      rw [ho, Option.some_bind, he]
    rcases hges : get_equipped_in_slot e.slot g.inventory with _ | c
    · -- nothing equipped in the slot
      have hnone := (ges_eq_none_iff e.slot g.inventory).mp hges
      by_cases heq : e.equipped = true
      · exfalso
        have hmid : equippedInSlot e.slot (g.inventory.getD id default) = true := by
          unfold equippedInSlot
          rw [he]
          simp [heq]
        have hmem : g.inventory.getD id default ∈ g.inventory := by
          rw [List.getD_eq_getElem _ _ hid]; exact List.getElem_mem hid
        rw [hnone _ hmem] at hmid
        exact absurd hmid (by simp)
      · have heq' : e.equipped = false := by simpa using heq
        have hstep : (toggle_equipment id g).1.inventory =
            g.inventory.set id ((g.inventory.getD id default).equip g.messages).1 := by
          unfold toggle_equipment
          rw [hd]
          dsimp only
          rw [hges]
          dsimp only
          rw [if_neg (by simp [heq']), modifyInv_eq_pair _ _ _ _ _ ho]
        have hequip : ∀ s, s ≠ e.slot →
            equippedInSlot s ((g.inventory.getD id default).equip g.messages).1 = false := by
          intro s hs
          rcases hoi : (g.inventory.getD id default).item with _ | it
          · rw [equip_fst_no_item _ _ hoi]
            unfold equippedInSlot
            rw [he]
            simp [heq']
          · rw [equip_fst_item _ e _ (by rw [hoi]; rfl) he heq']
            unfold equippedInSlot
            simp only [Option.elim_some, Bool.true_and]
            simp only [beq_eq_false_iff_ne, ne_eq]
            intro h
            exact hs h.symm
        constructor
        · intro s
          rw [hstep]
          exact (count_le_one_iff _ _).mpr
            (pairProp_after_set g.inventory id _ e.slot hid hpair hnone hequip s)
        · intro e0 j ej h1 h2 hj hjid h3 h4 h5
          exfalso
          have he0 : e0 = e := (Option.some.inj h1).symm
          subst he0
          have hmj : equippedInSlot e0.slot (g.inventory.getD j default) = true := by
            unfold equippedInSlot
            rw [h3]
            simp [h4, h5]
          have hmem : g.inventory.getD j default ∈ g.inventory := by
            rw [List.getD_eq_getElem _ _ hj]; exact List.getElem_mem hj
          rw [hnone _ hmem] at hmj
          exact absurd hmj (by simp)
    · -- a current holder exists
      rcases ges_eq_some e.slot g.inventory c hges with ⟨hc, hmc⟩
      by_cases heq : e.equipped = true
      · -- the toggled item is itself equipped: the holder is id
        have hmid : equippedInSlot e.slot (g.inventory.getD id default) = true := by
          unfold equippedInSlot
          rw [he]
          simp [heq]
        have hcid : id = c := (hpair e.slot c id hc hid hmc hmid).symm
        subst hcid
        have hres : (toggle_equipment id g).1.inventory =
            g.inventory.set id
              { g.inventory.getD id default with
                equipment := some { e with equipped := false } } := by
          unfold toggle_equipment
          rw [hd]
          dsimp only
          rw [hges]
          dsimp only
          rw [modifyInv_eq_pair _ _ _ _ _ ho, dequip_fst_equipped _ _ _ he heq]
          have ho2 : (g.inventory.set id
              { g.inventory.getD id default with
                equipment := some { e with equipped := false } }).get? id =
              some { g.inventory.getD id default with
                     equipment := some { e with equipped := false } } := by
            rw [List.get?_eq_getElem?, List.getElem?_set_self (by simpa using hid)]
          rw [if_pos heq]
          dsimp only
          rw [modifyInv_eq_pair _ _ _ _ _ ho2,
            dequip_fst_not_equipped _ { e with equipped := false } _ rfl rfl]
          simp [List.set_set]
        constructor
        · intro s
          rw [hres]
          refine (count_le_one_iff _ _).mpr
            (pairProp_after_set_dequip g.inventory id _ hpair ?_ s)
          intro s'
          simp [equippedInSlot]
        · intro e0 j ej h1 h2 _ _ _ _ _
          have he0 : e0 = e := (Option.some.inj h1).symm
          subst he0
          rw [heq] at h2
          exact absurd h2 (by simp)
      · -- the toggled item is not equipped: dequip the holder, equip it
        have heq' : e.equipped = false := by simpa using heq
        have hcid : c ≠ id := by
          intro h
          subst h
          unfold equippedInSlot at hmc
          rw [he] at hmc
          simp [heq'] at hmc
        -- extract the holder's equipment
        have hocE : ∃ ec : Equipment,
            (g.inventory.getD c default).equipment = some ec ∧
            ec.equipped = true ∧ ec.slot = e.slot := by
          unfold equippedInSlot at hmc
          rcases hoce : (g.inventory.getD c default).equipment with _ | ec
          · rw [hoce] at hmc
            simp at hmc
          · rw [hoce] at hmc
            simp only [Option.elim_some, Bool.and_eq_true, beq_iff_eq] at hmc
            exact ⟨ec, rfl, hmc.1, hmc.2⟩
        rcases hocE with ⟨ec, hoce, hecq, hecs⟩
        have hoc : g.inventory.get? c = some (g.inventory.getD c default) :=
          get?_of_lt _ _ hc
        have ho2 : (g.inventory.set c
            { g.inventory.getD c default with
              equipment := some { ec with equipped := false } }).get? id =
            some (g.inventory.getD id default) := by
          rw [List.get?_eq_getElem?, List.getElem?_set_ne hcid,
            List.getElem?_eq_getElem hid, List.getD_eq_getElem _ _ hid]
        have hres : (toggle_equipment id g).1.inventory =
            (g.inventory.set c
              { g.inventory.getD c default with
                equipment := some { ec with equipped := false } }).set id
              ((g.inventory.getD id default).equip
                ((g.inventory.getD c default).dequip g.messages).2).1 := by
          unfold toggle_equipment
          rw [hd]
          dsimp only
          rw [hges]
          dsimp only
          rw [modifyInv_eq_pair _ _ _ _ _ hoc, dequip_fst_equipped _ _ _ hoce hecq,
            if_neg (by simp [heq'])]
          dsimp only
          rw [modifyInv_eq_pair _ _ _ _ _ ho2]
        have hequip : ∀ s, s ≠ e.slot →
            equippedInSlot s ((g.inventory.getD id default).equip
              ((g.inventory.getD c default).dequip g.messages).2).1 = false := by
          intro s hs
          rcases hoi : (g.inventory.getD id default).item with _ | it
          · rw [equip_fst_no_item _ _ hoi]
            unfold equippedInSlot
            rw [he]
            simp [heq']
          · rw [equip_fst_item _ e _ (by rw [hoi]; rfl) he heq']
            unfold equippedInSlot
            simp only [Option.elim_some, Bool.true_and]
            simp only [beq_eq_false_iff_ne, ne_eq]
            intro h
            exact hs h.symm
        constructor
        · intro s
          rw [hres]
          refine (count_le_one_iff _ _).mpr
            (pairProp_after_double_set g.inventory c id _ _ e.slot hid hc hcid
              hpair hmc ?_ hequip s)
          intro s'
          simp [equippedInSlot]
        · intro e0 j ej h1 h2 hj hjid h3 h4 h5
          have he0 : e0 = e := (Option.some.inj h1).symm
          subst he0
          have hmj : equippedInSlot e0.slot (g.inventory.getD j default) = true := by
            unfold equippedInSlot
            rw [h3]
            simp [h4, h5]
          have hjc : j = c := hpair e0.slot j c hj hc hmj hmc
          subst hjc
          have hejec : ej = ec := by
            rw [hoce] at h3
            exact (Option.some.inj h3).symm
          subst hejec
          constructor
          · rw [hres, getD_set_ne_obj _ _ _ _ (fun h => hjid h.symm),
              getD_set_self_obj _ _ _ hc]
          · rw [hres, getD_set_self_obj _ _ _ (by simpa using hid)]
            rcases hoi : (g.inventory.getD id default).item with _ | it
            · rw [equip_fst_no_item _ _ hoi]
              unfold equippedInSlot
              rw [he]
              simp [heq']
            · rw [equip_fst_item _ e0 _ (by rw [hoi]; rfl) he heq']
              unfold equippedInSlot
              simp


/-- C4 witness: two right-hand swords, the first equipped; toggling the
second dequips the first and equips the second, keeping the count at one. -/
theorem toggle_equipment_slot_exclusive_witness :
    equippedCountIn Slot.RightHand (toggle_equipment 1 fxTwoSwordGame).1.inventory ≤ 1 ∧
    ((toggle_equipment 1 fxTwoSwordGame).1.inventory.getD 0 default).equipment =
      some { (⟨Slot.RightHand, true, 5, 0, 0⟩ : Equipment) with equipped := false } ∧
    equippedInSlot Slot.RightHand
        ((toggle_equipment 1 fxTwoSwordGame).1.inventory.getD 1 default) =
      (fxTwoSwordGame.inventory.getD 1 default).item.isSome := by
  have h := toggle_equipment_slot_exclusive fxTwoSwordGame 1 (by decide)
    (by intro s; cases s <;> decide)
  have h2 := h.2 ⟨Slot.RightHand, false, 5, 0, 0⟩ 0 ⟨Slot.RightHand, true, 5, 0, 0⟩
    rfl rfl (by decide) (by decide) rfl rfl rfl
  have hslot : (⟨Slot.RightHand, false, 5, 0, 0⟩ : Equipment).slot = Slot.RightHand := rfl
  exact ⟨h.1 Slot.RightHand, h2.1, by rw [← hslot]; exact h2.2⟩

/-! ### Dungeon-generator lemmas (shared by the map claims). -/

theorem place_monsters_append (n : Nat) (room : Rect) (map : GameMap)
    (objects : List Object) (r : Rng) :
    ∃ t, (place_monsters n room map objects r).1 = objects ++ t := by
  induction n generalizing objects r with
  | zero => exact ⟨[], by simp [place_monsters]⟩
  | succ n ih =>
    unfold place_monsters
    simp only [genRange]
    split
    · rcases ih _ _ with ⟨t, ht⟩
      rw [ht]
      exact ⟨_, by rw [List.append_assoc]⟩
    · exact ih _ _

theorem place_items_append (n : Nat) (room : Rect) (map : GameMap)
    (objects : List Object) (level : Nat) (r : Rng) :
    ∃ t, (place_items n room map objects level r).1 = objects ++ t := by
  induction n generalizing objects r with
  | zero => exact ⟨[], by simp [place_items]⟩
  | succ n ih =>
    unfold place_items
    simp only [genRange]
    split
    · rcases ih _ _ with ⟨t, ht⟩
      rw [ht]
      exact ⟨_, by rw [List.append_assoc]⟩
    · exact ih _ _

theorem place_objects_append (room : Rect) (map : GameMap)
    (objects : List Object) (level : Nat) (r : Rng) :
    ∃ t, (place_objects room map objects level r).1 = objects ++ t := by
  unfold place_objects
  simp only [genRange]
  rcases place_monsters_append ((0 + Int.ofNat (r.headD 0 %
      (Int.ofNat (from_dungeon_level [⟨1, 2⟩, ⟨4, 3⟩, ⟨6, 5⟩] level) + 1 - 0).toNat)).toNat)
      room map objects r.tail with ⟨t1, ht1⟩
  rcases place_items_append _ room map ((place_monsters _ room map objects r.tail).1)
      level _ with ⟨t2, ht2⟩
  rw [ht2, ht1]
  exact ⟨t1 ++ t2, by rw [List.append_assoc]⟩



theorem make_map_loop_extends (n : Nat) (map : GameMap) (rooms : List Rect)
    (objects : List Object) (level : Nat) (r : Rng) :
    ∃ t, (make_map_loop n map rooms objects level r).2.1 = rooms ++ t := by
  induction n generalizing map rooms objects r with
  | zero => exact ⟨[], by simp [make_map_loop]⟩
  | succ n ih =>
    unfold make_map_loop
    simp only [genRange, randBool]
    split
    · exact ih _ _ _ _
    · split
      · rcases ih _ (rooms ++ _) _ _ with ⟨t, ht⟩
        rw [ht]
        exact ⟨_, by rw [List.append_assoc]⟩
      · split
        · rcases ih _ (rooms ++ _) _ _ with ⟨t, ht⟩
          rw [ht]
          exact ⟨_, by rw [List.append_assoc]⟩
        · rcases ih _ (rooms ++ _) _ _ with ⟨t, ht⟩
          rw [ht]
          exact ⟨_, by rw [List.append_assoc]⟩

theorem place_objects_ne_nil (room : Rect) (map : GameMap)
    (objects : List Object) (level : Nat) (r : Rng) (h : objects ≠ []) :
    ¬((place_objects room map objects level r).1 = []) := by
  rcases place_objects_append room map objects level r with ⟨t, ht⟩
  rw [ht]
  exact List.append_ne_nil_of_left_ne_nil h t

theorem place_objects_get0 (room : Rect) (map : GameMap)
    (objects : List Object) (level : Nat) (r : Rng) (h : objects ≠ []) :
    (place_objects room map objects level r).1.get? 0 = objects.get? 0 := by
  rcases place_objects_append room map objects level r with ⟨t, ht⟩
  rw [ht, List.get?_eq_getElem?, List.get?_eq_getElem?]
  exact List.getElem?_append_left (by simpa using List.length_pos.mpr h)

theorem make_map_loop_objects_head (n : Nat) (map : GameMap) (rooms : List Rect)
    (objects : List Object) (level : Nat) (r : Rng) (hne : rooms ≠ [])
    (h0 : objects ≠ []) :
    (make_map_loop n map rooms objects level r).2.2.1.get? 0 = objects.get? 0 := by
  induction n generalizing map rooms objects r with
  | zero => simp [make_map_loop]
  | succ n ih =>
    unfold make_map_loop
    simp only [genRange, randBool]
    split
    · exact ih _ _ _ _ hne h0
    · rw [if_neg (by simp [List.isEmpty_iff, hne])]
      split
      all_goals
        exact (ih _ _ _ _
          (List.append_ne_nil_of_right_ne_nil rooms (List.cons_ne_nil _ _))
          (place_objects_ne_nil _ _ _ _ _ h0)).trans
          (place_objects_get0 _ _ _ _ _ h0)

theorem place_objects_getD0 (room : Rect) (map : GameMap)
    (objects : List Object) (level : Nat) (r : Rng) (h : objects ≠ []) :
    (place_objects room map objects level r).1.getD 0 default =
      objects.getD 0 default := by
  rw [List.getD_eq_getElem?_getD, List.getD_eq_getElem?_getD,
    ← List.get?_eq_getElem?, ← List.get?_eq_getElem?, place_objects_get0 _ _ _ _ _ h]

theorem setAt_get0 (l : List Object) (f : Object → Object) (h : l ≠ []) :
    (setAt l 0 f).get? 0 = some (f (l.getD 0 default)) := by
  have hlen : 0 < l.length := List.length_pos.mpr h
  have hg : l.get? 0 = some (l.getD 0 default) := get?_of_lt l 0 hlen
  unfold setAt
  rw [hg, List.get?_eq_getElem?, List.getElem?_set_self (by simpa using hlen)]

theorem setAt_ne_nil (l : List Object) (i : Nat) (f : Object → Object)
    (h : l ≠ []) : setAt l i f ≠ [] := by
  unfold setAt
  cases hg : l.get? i with
  | none => exact h
  | some o =>
    intro hc
    have := congrArg List.length hc
    simp [List.length_set] at this
    exact h this

theorem make_map_loop_nil_facts (n : Nat) (map : GameMap) (objects : List Object)
    (level : Nat) (r : Rng) (h0 : objects ≠ []) :
    (∃ t, (make_map_loop (n + 1) map [] objects level r).2.1 = firstCandidate r :: t) ∧
    (make_map_loop (n + 1) map [] objects level r).2.2.1.get? 0 =
      some ((objects.getD 0 default).set_pos (firstCandidate r).center.1
        (firstCandidate r).center.2) := by
  unfold make_map_loop firstCandidate
  simp only [genRange, List.any_nil, Bool.false_eq_true, ite_false, if_neg,
    List.isEmpty_nil, ite_true, List.nil_append]
  constructor
  · exact make_map_loop_extends _ _ _ _ _ _
  · exact (make_map_loop_objects_head _ _ _ _ _ _ (List.cons_ne_nil _ _)
      (setAt_ne_nil _ _ _ (place_objects_ne_nil _ _ _ _ _ h0))).trans
      ((setAt_get0 _ _ (place_objects_ne_nil _ _ _ _ _ h0)).trans
        (by rw [place_objects_getD0 _ _ _ _ _ h0]))

theorem make_map_eq (objects : List Object) (level : Nat) (r : Rng) :
    make_map objects level r =
      ((make_map_loop MAX_ROOMS initMap [] (objects.take 1) level r).1,
       (make_map_loop MAX_ROOMS initMap [] (objects.take 1) level r).2.2.1 ++
        [{ Object.new
             ((make_map_loop MAX_ROOMS initMap [] (objects.take 1) level r).2.1.getLastD
               default).center.1
             ((make_map_loop MAX_ROOMS initMap [] (objects.take 1) level r).2.1.getLastD
               default).center.2 '>' "stairs" "WHITE" false with
           always_visible := true }]) := by
  unfold make_map
  rfl

theorem make_map_facts (objects : List Object) (level : Nat) (r : Rng)
    (h0 : objects ≠ []) :
    make_map_rooms objects level r ≠ [] ∧
    (make_map_rooms objects level r).headD default = firstCandidate r ∧
    (make_map objects level r).2.get? 0 =
      some ((objects.getD 0 default).set_pos
        ((make_map_rooms objects level r).headD default).center.1
        ((make_map_rooms objects level r).headD default).center.2) ∧
    (make_map objects level r).2.getLast? =
      some { Object.new ((make_map_rooms objects level r).getLastD default).center.1
               ((make_map_rooms objects level r).getLastD default).center.2
               '>' "stairs" "WHITE" false with always_visible := true } := by
  have htake : objects.take 1 ≠ [] := by
    cases objects with
    | nil => exact absurd rfl h0
    | cons o os => simp
  have hgd : (objects.take 1).getD 0 default = objects.getD 0 default := by
    cases objects with
    | nil => rfl
    | cons o os => rfl
  have hfacts := make_map_loop_nil_facts 29 initMap (objects.take 1) level r htake
  rw [show (29 + 1 : Nat) = MAX_ROOMS from rfl] at hfacts
  rcases hfacts with ⟨⟨t, ht⟩, hhead⟩
  have hrooms : make_map_rooms objects level r = firstCandidate r :: t := ht
  have hobjne : (make_map_loop MAX_ROOMS initMap [] (objects.take 1) level r).2.2.1 ≠ [] := by
    intro hc
    rw [hc] at hhead
    simp at hhead
  refine ⟨by rw [hrooms]; simp, by rw [hrooms]; simp, ?_, ?_⟩
  · rw [make_map_eq]
    dsimp only
    rw [List.get?_eq_getElem?, List.getElem?_append_left (List.length_pos.mpr hobjne),
      ← List.get?_eq_getElem?, hhead, hgd, hrooms]
    simp
  · rw [make_map_eq]
    dsimp only
    rw [List.getLast?_concat]
    rfl


/-! ### C9 -/

/-- C9: `make_map` returns normally for every RNG stream and every
nonempty object list: the first candidate room is always accepted (the
intersection check over the empty accepted list is false), so the
accepted-room list is nonempty with the first candidate at its head; the
player at index 0 is repositioned to the first accepted room's center;
and the stairs object, placed at the center of the last accepted room
(an index that therefore never fails), is appended. -/
theorem make_map_total_spec (objects : List Object) (level : Nat) (r : Rng)
    (h0 : objects ≠ []) :
    make_map_rooms objects level r ≠ [] ∧
    (make_map_rooms objects level r).headD default = firstCandidate r ∧
    (make_map objects level r).2.get? 0 =
      some ((objects.getD 0 default).set_pos
        ((make_map_rooms objects level r).headD default).center.1
        ((make_map_rooms objects level r).headD default).center.2) ∧
    (make_map objects level r).2.getLast? =
      some { Object.new ((make_map_rooms objects level r).getLastD default).center.1
               ((make_map_rooms objects level r).getLastD default).center.2
               '>' "stairs" "WHITE" false with always_visible := true } :=
  make_map_facts objects level r h0

/-- C9 witness: on the two-room stream the accepted list is nonempty and
headed by the first candidate. -/
theorem make_map_total_spec_witness :
    make_map_rooms [fxPlayerAt0] 1 fxRng ≠ [] ∧
    (make_map_rooms [fxPlayerAt0] 1 fxRng).headD default = firstCandidate fxRng :=
  ⟨(make_map_total_spec [fxPlayerAt0] 1 fxRng (by simp)).1,
   (make_map_total_spec [fxPlayerAt0] 1 fxRng (by simp)).2.1⟩

/-! ### C6 -/

/-- C6: no session operation removes or reorders the entity at index 0:
`pick_item` (which swap-removes the picked object, never the player —
the session only picks objects with an Item facet, so `object_id ≠ 0`),
`drop_item` (which appends), and `make_map` on descent (which truncates
to the player and repositions it to the first room's center) all keep
the object at index 0 the player. -/
theorem player_index_zero_preserved
    (g : Game) (objects : List Object) (object_id inventory_id : Nat)
    (level : Nat) (r : Rng) :
    (object_id ≠ PLAYER → object_id < objects.length →
      (pick_item object_id g objects).2.get? 0 = objects.get? 0) ∧
    (objects ≠ [] →
      (drop_item inventory_id g objects).2.get? 0 = objects.get? 0) ∧
    (objects ≠ [] →
      (make_map objects level r).2.get? 0 =
        some ((objects.getD 0 default).set_pos
          ((make_map_rooms objects level r).headD default).center.1
          ((make_map_rooms objects level r).headD default).center.2)) := by
  refine ⟨?_, ?_, fun h0 => (make_map_facts objects level r h0).2.2.1⟩
  · intro hne hlt
    unfold pick_item
    split
    · rfl
    · rw [get?_of_lt _ _ hlt]
      dsimp only
      have hlen2 : 2 ≤ objects.length := by
        rcases Nat.eq_zero_or_pos object_id with h | h
        · exact absurd h (by simpa [PLAYER] using hne)
        · omega
      have hlast : objects.getLast? =
          some (objects.getD (objects.length - 1) default) := by
        rw [List.getLast?_eq_getElem?, List.getElem?_eq_getElem (by omega),
          List.getD_eq_getElem _ _ (by omega)]
      unfold swapRemove
      rw [hlast]
      dsimp only
      rw [List.dropLast_eq_take, List.get?_eq_getElem?, List.getElem?_take,
        List.length_set, if_pos (by omega), List.getElem?_set_ne (by simpa [PLAYER] using hne),
        ← List.get?_eq_getElem?]
  · intro h0
    unfold drop_item
    split
    · rfl
    · rw [List.get?_eq_getElem?, List.get?_eq_getElem?,
        List.getElem?_append_left (List.length_pos.mpr h0)]

/-- C6 witness: picking the goblin (index 1), dropping an item, and
regenerating the map all keep index 0 the player. -/
theorem player_index_zero_preserved_witness :
    (pick_item 1 fxGame [fxPlayerAt0, fxGoblinFar]).2.get? 0 =
      [fxPlayerAt0, fxGoblinFar].get? 0 ∧
    (drop_item 0 fxPotionGame [fxPlayerAt0, fxGoblinFar]).2.get? 0 =
      [fxPlayerAt0, fxGoblinFar].get? 0 ∧
    (make_map [fxPlayerAt0, fxGoblinFar] 1 fxRng).2.get? 0 =
      some ((([fxPlayerAt0, fxGoblinFar] : List Object).getD 0 default).set_pos
        ((make_map_rooms [fxPlayerAt0, fxGoblinFar] 1 fxRng).headD default).center.1
        ((make_map_rooms [fxPlayerAt0, fxGoblinFar] 1 fxRng).headD default).center.2) :=
  ⟨(player_index_zero_preserved fxGame [fxPlayerAt0, fxGoblinFar] 1 0 1 fxRng).1
      (by decide) (by decide),
   (player_index_zero_preserved fxPotionGame [fxPlayerAt0, fxGoblinFar] 1 0 1 fxRng).2.1
      (by simp),
   (player_index_zero_preserved fxGame [fxPlayerAt0, fxGoblinFar] 1 0 1 fxRng).2.2
      (by simp)⟩

/-! ### C2 -/

theorem rect_intersect_symm (a b : Rect) : a.intersect b = b.intersect a := by
  unfold Rect.intersect
  rw [Bool.eq_iff_iff]
  simp only [Bool.and_eq_true, decide_eq_true_eq, ge_iff_le]
  tauto

theorem make_map_loop_pairwise (n : Nat) (map : GameMap) (rooms : List Rect)
    (objects : List Object) (level : Nat) (r : Rng)
    (h : rooms.Pairwise (fun a b => a.intersect b = false)) :
    (make_map_loop n map rooms objects level r).2.1.Pairwise
      (fun a b => a.intersect b = false) := by
  induction n generalizing map rooms objects r with
  | zero => simpa [make_map_loop]
  | succ n ih =>
    unfold make_map_loop
    simp only [genRange, randBool]
    split
    · exact ih _ _ _ _ h
    · rename_i hfail
      simp only [List.any_eq_true, not_exists, not_and, Bool.not_eq_true] at hfail
      split
      all_goals
        refine ih _ _ _ _ ?_
        rw [List.pairwise_append]
        refine ⟨h, List.pairwise_singleton _ _, ?_⟩
        intro a ha b hb
        rw [List.mem_singleton] at hb
        subst hb
        rw [rect_intersect_symm]
        exact hfail a ha

/-- C2: for every RNG stream, the accepted rooms of a generated level
pairwise fail the inclusive-bounds intersection test: a candidate is
accepted only when it intersects no previously accepted room, and the
test is symmetric. -/
theorem make_map_rooms_pairwise_disjoint (objects : List Object) (level : Nat)
    (r : Rng) (i j : Nat) (hij : i ≠ j)
    (hi : i < (make_map_rooms objects level r).length)
    (hj : j < (make_map_rooms objects level r).length) :
    ((make_map_rooms objects level r).getD i default).intersect
      ((make_map_rooms objects level r).getD j default) = false := by
  have hp : (make_map_rooms objects level r).Pairwise
      (fun a b => a.intersect b = false) :=
    make_map_loop_pairwise MAX_ROOMS initMap [] (objects.take 1) level r (by simp)
  rw [List.pairwise_iff_getElem] at hp
  rw [List.getD_eq_getElem _ _ hi, List.getD_eq_getElem _ _ hj]
  rcases Nat.lt_or_ge i j with h | h
  · exact hp i j hi hj h
  · have hlt : j < i := by omega
    rw [rect_intersect_symm]
    exact hp j i hj hi hlt

/-- C2 witness: the two accepted rooms of the concrete stream do not
intersect, in either order. -/
theorem make_map_rooms_pairwise_disjoint_witness :
    ((make_map_rooms [fxPlayerAt0] 1 fxRng).getD 0 default).intersect
      ((make_map_rooms [fxPlayerAt0] 1 fxRng).getD 1 default) = false ∧
    ((make_map_rooms [fxPlayerAt0] 1 fxRng).getD 1 default).intersect
      ((make_map_rooms [fxPlayerAt0] 1 fxRng).getD 0 default) = false :=
  ⟨make_map_rooms_pairwise_disjoint [fxPlayerAt0] 1 fxRng 0 1 (by decide)
      (by decide) (by decide),
   make_map_rooms_pairwise_disjoint [fxPlayerAt0] 1 fxRng 1 0 (by decide)
      (by decide) (by decide)⟩


/-! ### C3 -/

theorem take_damage_obj_xp_indep (o : Object) (d : Int) (g g' : Game) :
    (o.take_damage d g).1 = (o.take_damage d g').1 ∧
    (o.take_damage d g).2.2 = (o.take_damage d g').2.2 := by
  unfold Object.take_damage
  cases hf : o.fighter with
  | none => simp [hf]
  | some f =>
    by_cases hd : d > 0
    · by_cases hhp : f.hp - d ≤ 0
      · simp only [hf, hd, ite_true, hhp]
        cases f.on_death <;>
          simp [DeathCallback.callback, player_death, monster_death]
      · simp [hf, hd, hhp]
    · by_cases hhp : f.hp ≤ 0
      · simp only [hf, hd, ite_false, hhp, ite_true]
        cases f.on_death <;>
          simp [DeathCallback.callback, player_death, monster_death]
      · simp [hf, hd, hhp]

theorem take_damage_game_inventory (o : Object) (d : Int) (g : Game) :
    (o.take_damage d g).2.1.inventory = g.inventory := by
  unfold Object.take_damage
  cases hf : o.fighter with
  | none => simp [hf]
  | some f =>
    by_cases hd : d > 0
    · by_cases hhp : f.hp - d ≤ 0
      · simp only [hf, hd, ite_true, hhp]
        cases f.on_death <;>
          simp [DeathCallback.callback, player_death, monster_death, Game.addMessage]
      · simp [hf, hd, hhp]
    · by_cases hhp : f.hp ≤ 0
      · simp only [hf, hd, ite_false, hhp, ite_true]
        cases f.on_death <;>
          simp [DeathCallback.callback, player_death, monster_death, Game.addMessage]
      · simp [hf, hd, hhp]

theorem fireballXpFrom_cons (x y : Int) (g0 : Game) (idx : Nat) (o : Object)
    (rest : List Object) :
    fireballXpFrom x y g0 idx (o :: rest) =
      (if idx ≠ PLAYER ∧ fireballHit x y o = true then
        ((o.take_damage FIRE_DAMAGE g0).2.2).getD 0
       else 0) + fireballXpFrom x y g0 (idx + 1) rest := rfl

theorem fireball_loop_spec (x y : Int) (g0 : Game) (l : List Object) :
    ∀ (idx : Nat) (g : Game) (acc : Int),
      (fireball_loop x y l idx g acc).1 = l.map (fun o => burnObject x y o g0) ∧
      (fireball_loop x y l idx g acc).2.2 = acc + fireballXpFrom x y g0 idx l ∧
      (fireball_loop x y l idx g acc).2.1.inventory = g.inventory := by
  induction l with
  | nil => intro idx g acc; simp [fireball_loop, fireballXpFrom]
  | cons o rest ih =>
    intro idx g acc
    unfold fireball_loop
    by_cases hhit : fireballHit x y o = true
    · simp only [hhit, ite_true]
      rcases htd : o.take_damage FIRE_DAMAGE
          (g.addMessage (o.name ++ " is burnt by the infernal spell!") "ORANGE")
        with ⟨o1, g1, xpOpt⟩
      dsimp only
      have hobj : o1 = burnObject x y o g0 := by
        have h1 := (take_damage_obj_xp_indep o FIRE_DAMAGE
          (g.addMessage (o.name ++ " is burnt by the infernal spell!") "ORANGE") g0).1
        rw [htd] at h1
        rw [burnObject, if_pos hhit]
        exact h1
      have hxp : xpOpt = (o.take_damage FIRE_DAMAGE g0).2.2 := by
        have h1 := (take_damage_obj_xp_indep o FIRE_DAMAGE
          (g.addMessage (o.name ++ " is burnt by the infernal spell!") "ORANGE") g0).2
        rw [htd] at h1
        exact h1
      have hginv : g1.inventory = g.inventory := by
        have h1 := take_damage_game_inventory o FIRE_DAMAGE
          (g.addMessage (o.name ++ " is burnt by the infernal spell!") "ORANGE")
        rw [htd] at h1
        exact h1
      rcases ih (idx + 1) g1 _ with ⟨ihobj, ihxp, ihinv⟩
      refine ⟨?_, ?_, ?_⟩
      · rw [List.map_cons, ihobj, hobj]
      · rw [ihxp, fireballXpFrom_cons, ← hxp]
        cases xpOpt with
        | none => simp
        | some xp =>
          by_cases hidx : idx ≠ PLAYER
          · rw [if_pos ⟨hidx, hhit⟩]
            simp only [hidx, ite_true, Option.getD_some]
            omega
          · rw [if_neg (fun hc => hidx hc.1)]
            simp only [hidx, ite_false]
            omega
      · rw [ihinv, hginv]
    · have hhit' : fireballHit x y o = false := by simpa using hhit
      simp only [hhit', Bool.false_eq_true, ite_false]
      rcases ih (idx + 1) g acc with ⟨ihobj, ihxp, ihinv⟩
      refine ⟨?_, ?_, ?_⟩
      · rw [List.map_cons, ihobj, burnObject, if_neg (by simp [hhit'])]
      · rw [ihxp, fireballXpFrom_cons,
          if_neg (fun hc => by rw [hhit'] at hc; exact absurd hc.2 (by simp))]
        omega
      · exact ihinv



theorem addPlayerXp_length (objects : List Object) (xp : Int) :
    (addPlayerXp objects xp).length = objects.length := by
  unfold addPlayerXp
  cases hg : objects.get? PLAYER with
  | none => rfl
  | some p => simp [List.length_set]

theorem addPlayerXp_getD_ne (objects : List Object) (xp : Int) (i : Nat)
    (h : i ≠ PLAYER) :
    (addPlayerXp objects xp).getD i default = objects.getD i default := by
  unfold addPlayerXp
  cases hg : objects.get? PLAYER with
  | none => rfl
  | some p => exact getD_set_ne_obj _ _ _ _ (fun hc => h hc.symm)

theorem addPlayerXp_getD0 (objects : List Object) (xp : Int) :
    (addPlayerXp objects xp).getD PLAYER default =
      addXpTo (objects.getD PLAYER default) xp := by
  unfold addPlayerXp
  cases hg : objects.get? PLAYER with
  | none =>
    have hlen : objects.length ≤ PLAYER := by
      by_contra hc
      rw [get?_of_lt _ _ (by omega)] at hg
      exact Option.noConfusion hg
    have : objects = [] := by
      cases objects with
      | nil => rfl
      | cons a as => simp [PLAYER] at hlen
    subst this
    rfl
  | some p =>
    have hlen : PLAYER < objects.length := by
      by_contra hc
      rw [List.get?_eq_getElem?, List.getElem?_eq_none (by omega)] at hg
      exact Option.noConfusion hg
    have hp : p = objects.getD PLAYER default := by
      rw [get?_of_lt _ _ hlen] at hg
      exact (Option.some.inj hg).symm
    rw [getD_set_self_obj _ _ _ hlen, hp]
    rfl

theorem burnObject_default (x y : Int) (g : Game) :
    burnObject x y default g = default := by
  simp [burnObject, fireballHit, default, Object.new]

theorem getD_map_burn (x y : Int) (g : Game) (l : List Object) (i : Nat) :
    (l.map (fun o => burnObject x y o g)).getD i default =
      burnObject x y (l.getD i default) g := by
  rcases Nat.lt_or_ge i l.length with h | h
  · rw [List.getD_eq_getElem _ _ (by simpa using h), List.getD_eq_getElem _ _ h]
    simp
  · rw [List.getD_eq_default _ _ (by simpa using h), List.getD_eq_default _ _ h,
      burnObject_default]



theorem cast_fireball_eq (tcod : Tcod) (g : Game) (objects : List Object)
    (x y : Int) (htarget : tcod.tile_target = some (x, y)) :
    cast_fireball tcod g objects =
      ((fireball_loop x y objects 0
          ((g.addMessage "Choose a tile to cast infernal flames to" "LIGHT_GREY").addMessage
            "The fireball explodes and burnes everything it can touch" "ORANGE") 0).2.1,
        addPlayerXp
          (fireball_loop x y objects 0
            ((g.addMessage "Choose a tile to cast infernal flames to" "LIGHT_GREY").addMessage
              "The fireball explodes and burnes everything it can touch" "ORANGE") 0).1
          (fireball_loop x y objects 0
            ((g.addMessage "Choose a tile to cast infernal flames to" "LIGHT_GREY").addMessage
              "The fireball explodes and burnes everything it can touch" "ORANGE") 0).2.2,
        UseResult.UsedUp) := by
  unfold cast_fireball
  rw [htarget]

/-- C3: a confirmed Fireball hits every object carrying a `Fighter` whose
squared distance to the tile is at most the squared radius (f32 distance
at most `SPELL_RANGE / 2 = 5`, inclusive), regardless of visibility,
hostility or index — the player included; the xp of every kill at a
non-player index is summed and credited to the object at index 0; and
the scroll is removed from the inventory whenever a tile was confirmed. -/
theorem cast_fireball_spec (tcod : Tcod) (g : Game) (objects : List Object)
    (id : Nat) (x y : Int)
    (htarget : tcod.tile_target = some (x, y))
    (hitem : (g.inventory.get? id).bind (fun o => o.item) = some Item.Fireball) :
    (use_item id tcod g objects).1.inventory = g.inventory.eraseIdx id ∧
    (use_item id tcod g objects).2.length = objects.length ∧
    (∀ i, i ≠ PLAYER →
      (use_item id tcod g objects).2.getD i default =
        burnObject x y (objects.getD i default) g) ∧
    (use_item id tcod g objects).2.getD PLAYER default =
      addXpTo (burnObject x y (objects.getD PLAYER default) g)
        (fireballXpGain x y g objects) := by
  rcases fireball_loop_spec x y g objects 0
    ((g.addMessage "Choose a tile to cast infernal flames to" "LIGHT_GREY").addMessage
      "The fireball explodes and burnes everything it can touch" "ORANGE") 0
    with ⟨hobj, hxp, hinv⟩
  have huse : use_item id tcod g objects =
      ({ (cast_fireball tcod g objects).1 with
          inventory := (cast_fireball tcod g objects).1.inventory.eraseIdx id },
        (cast_fireball tcod g objects).2.1) := by
    unfold use_item
    rw [hitem]
    dsimp only
    rw [cast_fireball_eq tcod g objects x y htarget]
  have hcobj : (cast_fireball tcod g objects).2.1 =
      addPlayerXp (objects.map (fun o => burnObject x y o g))
        (fireballXpGain x y g objects) := by
    rw [cast_fireball_eq tcod g objects x y htarget]
    dsimp only
    rw [hobj, hxp]
    have : (0 : Int) + fireballXpFrom x y g 0 objects = fireballXpGain x y g objects := by
      rw [fireballXpGain]
      omega
    rw [this]
  have hcinv : (cast_fireball tcod g objects).1.inventory = g.inventory := by
    rw [cast_fireball_eq tcod g objects x y htarget]
    dsimp only
    rw [hinv]
    rfl
  refine ⟨?_, ?_, ?_, ?_⟩
  · rw [huse]
    dsimp only
    rw [hcinv]
  · rw [huse]
    dsimp only
    rw [hcobj, addPlayerXp_length, List.length_map]
  · intro i hi
    rw [huse]
    dsimp only
    rw [hcobj, addPlayerXp_getD_ne _ _ _ hi, getD_map_burn]
  · rw [huse]
    dsimp only
    rw [hcobj, addPlayerXp_getD0, getD_map_burn]


/-- C3 witness: fireball at the origin with three fighters in radius —
the caster itself, a goblin and an orc; the scroll is consumed, the
goblin is burnt, the player is burnt and credited exactly the two
monster bounties (25 + 80 = 105). -/
theorem cast_fireball_spec_witness :
    (use_item 0 fxTcodAt0 fxScrollGame
        [fxPlayerAt0, fxGoblinNear, fxOrcNear]).1.inventory =
      fxScrollGame.inventory.eraseIdx 0 ∧
    (use_item 0 fxTcodAt0 fxScrollGame
        [fxPlayerAt0, fxGoblinNear, fxOrcNear]).2.getD 1 default =
      burnObject 0 0
        (([fxPlayerAt0, fxGoblinNear, fxOrcNear] : List Object).getD 1 default)
        fxScrollGame ∧
    (use_item 0 fxTcodAt0 fxScrollGame
        [fxPlayerAt0, fxGoblinNear, fxOrcNear]).2.getD PLAYER default =
      addXpTo
        (burnObject 0 0
          (([fxPlayerAt0, fxGoblinNear, fxOrcNear] : List Object).getD PLAYER default)
          fxScrollGame)
        (fireballXpGain 0 0 fxScrollGame [fxPlayerAt0, fxGoblinNear, fxOrcNear]) ∧
    fireballXpGain 0 0 fxScrollGame [fxPlayerAt0, fxGoblinNear, fxOrcNear] = 105 :=
  ⟨(cast_fireball_spec fxTcodAt0 fxScrollGame [fxPlayerAt0, fxGoblinNear, fxOrcNear]
      0 0 0 rfl rfl).1,
   (cast_fireball_spec fxTcodAt0 fxScrollGame [fxPlayerAt0, fxGoblinNear, fxOrcNear]
      0 0 0 rfl rfl).2.2.1 1 (by decide),
   (cast_fireball_spec fxTcodAt0 fxScrollGame [fxPlayerAt0, fxGoblinNear, fxOrcNear]
      0 0 0 rfl rfl).2.2.2,
   by decide⟩

theorem get?_some_lt (l : List Object) (i : Nat) (o : Object)
    (h : l.get? i = some o) : i < l.length := by
  by_contra hc
  rw [List.get?_eq_getElem?, List.getElem?_eq_none (by omega)] at h
  exact Option.noConfusion h

theorem getD_of_get? (l : List Object) (i : Nat) (o : Object)
    (h : l.get? i = some o) : l.getD i default = o := by
  rw [List.getD_eq_getElem?_getD, ← List.get?_eq_getElem?, h]
  rfl

/-- Arithmetic core of the one-step chase at squared distance 10: the
normalized-rounded step is a unit step and brings the squared distance
down to 5. -/
theorem step_at_ten (dx dy : Int) (h : dx * dx + dy * dy = 10) :
    (dx - stepComponent dx 10) * (dx - stepComponent dx 10) +
      (dy - stepComponent dy 10) * (dy - stepComponent dy 10) = 5 ∧
    stepComponent dx 10 * stepComponent dx 10 +
      stepComponent dy 10 * stepComponent dy 10 = 1 := by
  have h1 : dx ≤ 3 := by nlinarith
  have h2 : -3 ≤ dx := by nlinarith
  have h3 : dy ≤ 3 := by nlinarith
  have h4 : -3 ≤ dy := by nlinarith
  interval_cases dx <;> interval_cases dy <;>
    first
      | exact absurd h (by decide)
      | exact ⟨by decide, by decide⟩

theorem take_damage_hp_of_player_callback (o : Object) (f : Fighter) (d : Int)
    (g : Game) (hf : o.fighter = some f) (hcb : f.on_death = .Player)
    (hd : d > 0) :
    (o.take_damage d g).1.fighter.map (fun ff => ff.hp) = some (f.hp - d) := by
  unfold Object.take_damage
  by_cases hhp : f.hp - d ≤ 0
  · simp only [hf, hd, ite_true, hhp, hcb]
    simp [DeathCallback.callback, player_death]
  · simp only [hf, hd, ite_true, hhp, ite_false]
    simp

theorem attack_attacker_pos (self target : Object) (g : Game) :
    (self.attack target g).1.x = self.x ∧ (self.attack target g).1.y = self.y := by
  unfold Object.attack
  by_cases hd : self.power g - target.defense g > 0
  · simp only [hd, ite_true]
    rcases htd : target.take_damage (self.power g - target.defense g)
        (g.addMessage (target.name ++ " gets " ++
          toString (self.power g - target.defense g) ++ " damage from " ++ self.name)
          "RED") with ⟨t1, g1, xpOpt⟩
    dsimp only
    cases xpOpt <;> simp
  · simp only [hd, ite_false]
    simp

theorem attack_target_hp (self target : Object) (f : Fighter) (g : Game)
    (hf : target.fighter = some f) (hcb : f.on_death = .Player) :
    (self.attack target g).2.1.fighter.map (fun ff => ff.hp) =
      some (if self.power g - target.defense g > 0
        then f.hp - (self.power g - target.defense g) else f.hp) := by
  unfold Object.attack
  by_cases hd : self.power g - target.defense g > 0
  · simp only [hd, ite_true]
    rcases htd : target.take_damage (self.power g - target.defense g)
        (g.addMessage (target.name ++ " gets " ++
          toString (self.power g - target.defense g) ++ " damage from " ++ self.name)
          "RED") with ⟨t1, g1, xpOpt⟩
    dsimp only
    have hkey := take_damage_hp_of_player_callback target f
      (self.power g - target.defense g)
      (g.addMessage (target.name ++ " gets " ++
        toString (self.power g - target.defense g) ++ " damage from " ++ self.name)
        "RED") hf hcb hd
    rw [htd] at hkey
    cases xpOpt <;> simpa using hkey
  · simp only [hd, ite_false]
    simp [hf]

/-- C5 counterexample: on the integer grid the Euclidean distance the
spec prints as `3.2` is realized only as `sqrt 10 = 3.16...` (offset
`(3,1)`, squared distance `10`).  A Basic-AI monster at that distance,
inside the FOV, does NOT always move one step closer: when the tile
`move_towards` picks is blocked, `move_by` is a no-op and the object
list is returned unchanged, so the distance does not decrease. -/
theorem ai_basic_blocked_counterexample :
    fxGoblinFar.distSqTo fxPlayerAt0 = 10 ∧
    fxTcod.fov fxGoblinFar.x fxGoblinFar.y = true ∧
    is_blocked 2 1 fxGameWalled.map [fxPlayerAt0, fxGoblinFar] = true ∧
    (ai_basic 1 fxTcod fxGameWalled [fxPlayerAt0, fxGoblinFar]).1 =
      [fxPlayerAt0, fxGoblinFar] ∧
    (ai_basic 1 fxTcod fxGameWalled [fxPlayerAt0, fxGoblinFar]).2.1.messages = [] := by
  refine ⟨by decide, rfl, by decide, by decide, by decide⟩

/-- C5 (amended): a Basic-AI monster in FOV at squared distance `10` from
the player (f32 distance `sqrt 10 = 3.16...`, the `3.2` of the spec),
whose `move_towards` destination tile is not blocked, moves exactly one
unit step and its squared distance to the player drops to `5` (strictly
closer), while the player object and the game are untouched (no attack);
at squared distance `1` it attacks instead of moving: the player loses
`monster.power - player.defense` hp iff that difference is positive, and
the monster does not move. -/
theorem ai_basic_distance_spec (tcod : Tcod) (g : Game) (objects : List Object)
    (mid : Nat) (monster player : Object)
    (hmid : mid ≠ PLAYER)
    (hm : objects.get? mid = some monster)
    (hp0 : objects.get? PLAYER = some player)
    (hfov : tcod.fov monster.x monster.y = true) :
    (monster.distSqTo player = 10 →
      is_blocked (monster.x + stepComponent (player.x - monster.x) 10)
          (monster.y + stepComponent (player.y - monster.y) 10) g.map objects
          = false →
      ((ai_basic mid tcod g objects).1.getD mid default).distSqTo player = 5 ∧
      (((ai_basic mid tcod g objects).1.getD mid default).x - monster.x) *
          (((ai_basic mid tcod g objects).1.getD mid default).x - monster.x) +
        (((ai_basic mid tcod g objects).1.getD mid default).y - monster.y) *
          (((ai_basic mid tcod g objects).1.getD mid default).y - monster.y) = 1 ∧
      (ai_basic mid tcod g objects).1.getD PLAYER default = player ∧
      (ai_basic mid tcod g objects).2.1 = g) ∧
    (monster.distSqTo player = 1 →
      ∀ f, player.fighter = some f → f.on_death = DeathCallback.Player →
        0 < f.hp →
        ((ai_basic mid tcod g objects).1.getD PLAYER default).fighter.map
            (fun ff => ff.hp) =
          some (if monster.power g - player.defense g > 0
            then f.hp - (monster.power g - player.defense g) else f.hp) ∧
        ((ai_basic mid tcod g objects).1.getD mid default).pos = monster.pos) := by
  have hmlt : mid < objects.length := get?_some_lt _ _ _ hm
  have hplt : PLAYER < objects.length := get?_some_lt _ _ _ hp0
  constructor
  · intro hdist hblk
    have hs : (player.x - monster.x) * (player.x - monster.x) +
        (player.y - monster.y) * (player.y - monster.y) = 10 := hdist
    unfold ai_basic
    rw [hm, hp0]
    dsimp only
    rw [if_pos hfov, if_pos (show monster.distSqTo player ≥ 4 by omega)]
    unfold move_towards
    rw [hm]
    dsimp only
    rw [hs]
    unfold move_by
    rw [hm]
    dsimp only
    rw [hblk]
    simp only [Bool.not_false, if_true]
    refine ⟨?_, ?_, ?_, trivial⟩
    · rw [getD_set_self_obj _ _ _ hmlt]
      simp only [Object.set_pos, Object.distSqTo]
      linear_combination (step_at_ten (player.x - monster.x) (player.y - monster.y) hs).1
    · rw [getD_set_self_obj _ _ _ hmlt]
      simp only [Object.set_pos]
      linear_combination (step_at_ten (player.x - monster.x) (player.y - monster.y) hs).2
    · rw [getD_set_ne_obj _ _ _ _ hmid]
      exact getD_of_get? _ _ _ hp0
  · intro hdist f hf hcb hhp
    unfold ai_basic
    rw [hm, hp0]
    dsimp only
    rw [if_pos hfov, if_neg (show ¬ monster.distSqTo player ≥ 4 by omega)]
    have hcond : (player.fighter.elim false fun fg => fg.hp > 0) = true := by
      rw [hf]
      simpa using hhp
    rw [if_pos hcond]
    rcases hatk : monster.attack player g with ⟨m1, p1, g1⟩
    dsimp only
    have hhp1 := attack_target_hp monster player f g hf hcb
    rw [hatk] at hhp1
    have hpos := attack_attacker_pos monster player g
    rw [hatk] at hpos
    dsimp only at hhp1 hpos
    refine ⟨?_, ?_⟩
    · rw [getD_set_self_obj _ _ _ (by simpa using hplt)]
      exact hhp1
    · rw [getD_set_ne_obj _ _ _ _ (Ne.symm hmid), getD_set_self_obj _ _ _ hmlt]
      simp [Object.pos, hpos.1, hpos.2]

/-- Witness for the amended C5 theorem: with the destination carved,
the goblin at squared distance 10 steps to squared distance 5 and the
player is untouched; the adjacent goblin attacks for
`3 (power) - 0 (defense) = 3`, leaving the player at 27 hp. -/
theorem ai_basic_distance_spec_witness :
    (((ai_basic 1 fxTcod fxGameOpen [fxPlayerAt0, fxGoblinFar]).1.getD 1
        default).distSqTo fxPlayerAt0 = 5 ∧
      (ai_basic 1 fxTcod fxGameOpen [fxPlayerAt0, fxGoblinFar]).1.getD PLAYER
        default = fxPlayerAt0) ∧
    ((ai_basic 1 fxTcod fxGameOpen [fxPlayerAt0, fxGoblinAdj]).1.getD PLAYER
        default).fighter.map (fun ff => ff.hp) = some 27 := by
  have h1 := ai_basic_distance_spec fxTcod fxGameOpen [fxPlayerAt0, fxGoblinFar]
    1 fxGoblinFar fxPlayerAt0 (by decide) rfl rfl rfl
  have h2 := ai_basic_distance_spec fxTcod fxGameOpen [fxPlayerAt0, fxGoblinAdj]
    1 fxGoblinAdj fxPlayerAt0 (by decide) rfl rfl rfl
  obtain ⟨ha, -, hc, -⟩ := h1.1 (by decide) (by decide)
  refine ⟨⟨ha, hc⟩, ?_⟩
  obtain ⟨hd, -⟩ := h2.2 (by decide) _ rfl (by decide) (by decide)
  rw [hd]
  decide

theorem getD_set_cases {α : Type} (l : List α) (i j : Nat) (a d : α) :
    (i = j ∧ i < l.length ∧ (l.set i a).getD j d = a) ∨
      (l.set i a).getD j d = l.getD j d := by
  by_cases hij : i = j
  · subst hij
    by_cases hl : i < l.length
    · left
      refine ⟨rfl, hl, ?_⟩
      rw [List.getD_eq_getElem?_getD, List.getElem?_set_self hl]
      rfl
    · right
      rw [List.set_eq_of_length_le (by omega)]
  · right
    rw [List.getD_eq_getElem?_getD, List.getElem?_set_ne hij,
      ← List.getD_eq_getElem?_getD]

theorem getTile_setTile_cases (m : GameMap) (x y a b : Int) (t : Tile) :
    getTile (setTile m x y t) a b = t ∨
      getTile (setTile m x y t) a b = getTile m a b := by
  unfold getTile setTile
  rcases getD_set_cases m x.toNat a.toNat ((m.getD x.toNat []).set y.toNat t) []
      with ⟨hxa, hxl, h⟩ | h
  · rw [h, ← hxa]
    rcases getD_set_cases (m.getD x.toNat []) y.toNat b.toNat t Tile.wall
        with ⟨-, -, h2⟩ | h2
    · left; exact h2
    · right; exact h2
  · right; rw [h]

theorem tileFree_setTile_empty (m : GameMap) (x y : Int) (p : Int × Int)
    (h : tileFree m p) : tileFree (setTile m x y Tile.empty) p := by
  unfold tileFree at h ⊢
  rcases getTile_setTile_cases m x y p.1 p.2 Tile.empty with h2 | h2 <;> rw [h2]
  · rfl
  · exact h

theorem mapWF_setTile (m : GameMap) (x y : Int) (t : Tile) (h : mapWF m) :
    mapWF (setTile m x y t) := by
  obtain ⟨h1, h2⟩ := h
  constructor
  · rw [setTile, List.length_set]
    exact h1
  · intro col hcol
    by_cases hxl : x.toNat < m.length
    · rcases List.mem_or_eq_of_mem_set hcol with hmem | rfl
      · exact h2 col hmem
      · rw [List.length_set]
        exact h2 _ (by rw [List.getD_eq_getElem _ _ hxl]; exact List.getElem_mem hxl)
    · rw [setTile, List.set_eq_of_length_le (by omega)] at hcol
      exact h2 col hcol

theorem getTile_setTile_same (m : GameMap) (x y : Int) (t : Tile)
    (hwf : mapWF m) (hx : 0 ≤ x) (hx2 : x < MAP_WIDTH)
    (hy : 0 ≤ y) (hy2 : y < MAP_HEIGHT) :
    getTile (setTile m x y t) x y = t := by
  obtain ⟨h1, h2⟩ := hwf
  have hW : MAP_WIDTH = (80 : Int) := rfl
  have hWn : MAP_WIDTH.toNat = 80 := rfl
  have hH : MAP_HEIGHT = (43 : Int) := rfl
  have hHn : MAP_HEIGHT.toNat = 43 := rfl
  have hxl : x.toNat < m.length := by omega
  have hcl : (m.getD x.toNat []).length = MAP_HEIGHT.toNat :=
    h2 _ (by rw [List.getD_eq_getElem _ _ hxl]; exact List.getElem_mem hxl)
  have hyl : y.toNat < (m.getD x.toNat []).length := by omega
  unfold getTile setTile
  have e1 : (m.set x.toNat ((m.getD x.toNat []).set y.toNat t)).getD x.toNat [] =
      (m.getD x.toNat []).set y.toNat t := by
    rw [List.getD_eq_getElem?_getD, List.getElem?_set_self hxl, Option.getD_some]
  rw [e1, List.getD_eq_getElem?_getD, List.getElem?_set_self hyl, Option.getD_some]

theorem foldl_preserves {α : Type} (P : GameMap → Prop) (F : GameMap → α → GameMap)
    (hF : ∀ m a, P m → P (F m a)) :
    ∀ (l : List α) (m : GameMap), P m → P (l.foldl F m) := by
  intro l
  induction l with
  | nil => intro m h; exact h
  | cons a tl ih => intro m h; exact ih _ (hF _ _ h)

theorem mapWF_create_h_tunnel (x1 x2 y : Int) (m : GameMap) (h : mapWF m) :
    mapWF (create_h_tunnel x1 x2 y m) :=
  foldl_preserves mapWF _ (fun m a hm => mapWF_setTile m a y Tile.empty hm) _ _ h

theorem mapWF_create_v_tunnel (y1 y2 x : Int) (m : GameMap) (h : mapWF m) :
    mapWF (create_v_tunnel y1 y2 x m) :=
  foldl_preserves mapWF _ (fun m a hm => mapWF_setTile m x a Tile.empty hm) _ _ h

theorem mapWF_create_room (room : Rect) (m : GameMap) (h : mapWF m) :
    mapWF (create_room room m) :=
  foldl_preserves mapWF _
    (fun m a hm =>
      foldl_preserves mapWF _ (fun m2 b hm2 => mapWF_setTile m2 a b Tile.empty hm2)
        _ _ hm) _ _ h

theorem tileFree_create_h_tunnel (x1 x2 y : Int) (m : GameMap) (p : Int × Int)
    (h : tileFree m p) : tileFree (create_h_tunnel x1 x2 y m) p :=
  foldl_preserves (fun mm => tileFree mm p) _
    (fun m a hm => tileFree_setTile_empty m a y p hm) _ _ h

theorem tileFree_create_v_tunnel (y1 y2 x : Int) (m : GameMap) (p : Int × Int)
    (h : tileFree m p) : tileFree (create_v_tunnel y1 y2 x m) p :=
  foldl_preserves (fun mm => tileFree mm p) _
    (fun m a hm => tileFree_setTile_empty m x a p hm) _ _ h

theorem tileFree_create_room (room : Rect) (m : GameMap) (p : Int × Int)
    (h : tileFree m p) : tileFree (create_room room m) p :=
  foldl_preserves (fun mm => tileFree mm p) _
    (fun m a hm =>
      foldl_preserves (fun mm => tileFree mm p) _
        (fun m2 b hm2 => tileFree_setTile_empty m2 a b p hm2) _ _ hm) _ _ h

theorem mem_intRange_iff (lo hi x : Int) : x ∈ intRange lo hi ↔ lo ≤ x ∧ x ≤ hi := by
  unfold intRange
  simp only [List.mem_map, List.mem_range, Int.ofNat_eq_natCast]
  constructor
  · rintro ⟨i, hi2, rfl⟩
    omega
  · rintro ⟨h1, h2⟩
    exact ⟨(x - lo).toNat, by omega, by omega⟩

theorem fold_h_covers (l : List Int) (y : Int) :
    ∀ (m : GameMap) (x0 : Int), mapWF m → x0 ∈ l →
      0 ≤ x0 → x0 < MAP_WIDTH → 0 ≤ y → y < MAP_HEIGHT →
      tileFree (l.foldl (fun m x => setTile m x y Tile.empty) m) (x0, y) := by
  induction l with
  | nil => intro m x0 _ hmem _ _ _ _; cases hmem
  | cons a tl ih =>
    intro m x0 hwf hmem hx hx2 hy hy2
    rw [List.foldl_cons]
    rcases List.mem_cons.mp hmem with rfl | hmem2
    · refine foldl_preserves (fun mm => tileFree mm (x0, y)) _
        (fun mm v hv => tileFree_setTile_empty mm v y _ hv) _ _ ?_
      show (getTile (setTile m x0 y Tile.empty) x0 y).blocked = false
      rw [getTile_setTile_same m x0 y Tile.empty hwf hx hx2 hy hy2]
      rfl
    · exact ih _ _ (mapWF_setTile m a y Tile.empty hwf) hmem2 hx hx2 hy hy2

theorem fold_v_covers (l : List Int) (x : Int) :
    ∀ (m : GameMap) (y0 : Int), mapWF m → y0 ∈ l →
      0 ≤ x → x < MAP_WIDTH → 0 ≤ y0 → y0 < MAP_HEIGHT →
      tileFree (l.foldl (fun m y => setTile m x y Tile.empty) m) (x, y0) := by
  induction l with
  | nil => intro m y0 _ hmem _ _ _ _; cases hmem
  | cons a tl ih =>
    intro m y0 hwf hmem hx hx2 hy hy2
    rw [List.foldl_cons]
    rcases List.mem_cons.mp hmem with rfl | hmem2
    · refine foldl_preserves (fun mm => tileFree mm (x, y0)) _
        (fun mm v hv => tileFree_setTile_empty mm x v _ hv) _ _ ?_
      show (getTile (setTile m x y0 Tile.empty) x y0).blocked = false
      rw [getTile_setTile_same m x y0 Tile.empty hwf hx hx2 hy hy2]
      rfl
    · exact ih _ _ (mapWF_setTile m x a Tile.empty hwf) hmem2 hx hx2 hy hy2

theorem genRange_bounds (lo hi : Int) (r : Rng) (h : lo < hi) :
    lo ≤ (genRange lo hi r).1 ∧ (genRange lo hi r).1 < hi := by
  unfold genRange
  dsimp only
  have hm := Nat.mod_lt (r.headD 0) (show 0 < (hi - lo).toNat by omega)
  simp only [Int.ofNat_eq_natCast]
  omega

theorem center_bounds (room : Rect) (h : roomInB room) :
    0 ≤ room.center.1 ∧ room.center.1 < MAP_WIDTH ∧
      0 ≤ room.center.2 ∧ room.center.2 < MAP_HEIGHT := by
  obtain ⟨h1, h2, h3, h4, h5, h6⟩ := h
  unfold Rect.center
  dsimp only
  omega

theorem corridorCarved_mono (m m2 : GameMap) (a b : Int × Int)
    (hmono : ∀ p, tileFree m p → tileFree m2 p) (h : corridorCarved m a b) :
    corridorCarved m2 a b := by
  rcases h with h | h
  · exact Or.inl (fun p hp => hmono p (h p hp))
  · exact Or.inr (fun p hp => hmono p (h p hp))

theorem hv_tunnels_carve (a b : Int × Int) (m : GameMap) (hwf : mapWF m)
    (ha1 : 0 ≤ a.1) (ha2 : a.1 < MAP_WIDTH) (ha3 : 0 ≤ a.2) (ha4 : a.2 < MAP_HEIGHT)
    (hb1 : 0 ≤ b.1) (hb2 : b.1 < MAP_WIDTH) (hb3 : 0 ≤ b.2) (hb4 : b.2 < MAP_HEIGHT) :
    ∀ p ∈ hvPath a b,
      tileFree (create_v_tunnel a.2 b.2 b.1 (create_h_tunnel a.1 b.1 a.2 m)) p := by
  intro p hp
  unfold hvPath at hp
  rcases List.mem_append.mp hp with hp | hp
  · obtain ⟨x0, hx0, rfl⟩ := List.mem_map.mp hp
    have hx0b := (mem_intRange_iff _ _ _).mp hx0
    refine tileFree_create_v_tunnel _ _ _ _ _ ?_
    unfold create_h_tunnel
    exact fold_h_covers _ _ m x0 hwf hx0 (by omega) (by omega) ha3 ha4
  · obtain ⟨y0, hy0, rfl⟩ := List.mem_map.mp hp
    have hy0b := (mem_intRange_iff _ _ _).mp hy0
    unfold create_v_tunnel
    exact fold_v_covers _ _ _ y0 (mapWF_create_h_tunnel _ _ _ _ hwf) hy0
      hb1 hb2 (by omega) (by omega)

theorem vh_tunnels_carve (a b : Int × Int) (m : GameMap) (hwf : mapWF m)
    (ha1 : 0 ≤ a.1) (ha2 : a.1 < MAP_WIDTH) (ha3 : 0 ≤ a.2) (ha4 : a.2 < MAP_HEIGHT)
    (hb1 : 0 ≤ b.1) (hb2 : b.1 < MAP_WIDTH) (hb3 : 0 ≤ b.2) (hb4 : b.2 < MAP_HEIGHT) :
    ∀ p ∈ vhPath a b,
      tileFree (create_h_tunnel a.1 b.1 b.2 (create_v_tunnel a.2 b.2 a.1 m)) p := by
  intro p hp
  unfold vhPath at hp
  rcases List.mem_append.mp hp with hp | hp
  · obtain ⟨y0, hy0, rfl⟩ := List.mem_map.mp hp
    have hy0b := (mem_intRange_iff _ _ _).mp hy0
    refine tileFree_create_h_tunnel _ _ _ _ _ ?_
    unfold create_v_tunnel
    exact fold_v_covers _ _ m y0 hwf hy0 ha1 ha2 (by omega) (by omega)
  · obtain ⟨x0, hx0, rfl⟩ := List.mem_map.mp hp
    have hx0b := (mem_intRange_iff _ _ _).mp hx0
    unfold create_h_tunnel
    exact fold_h_covers _ _ _ x0 (mapWF_create_v_tunnel _ _ _ _ hwf) hx0
      (by omega) (by omega) hb3 hb4

theorem getLastD_eq_getD (l : List Rect) (d : Rect) (h : l ≠ []) :
    l.getLastD d = l.getD (l.length - 1) d := by
  rw [List.getLastD_eq_getLast?, List.getLast?_eq_getElem?, List.getD_eq_getElem?_getD]

theorem getLastD_mem (l : List Rect) (d : Rect) (h : l ≠ []) :
    l.getLastD d ∈ l := by
  have hl : 0 < l.length := List.length_pos.mpr h
  rw [getLastD_eq_getD l d h, List.getD_eq_getElem _ _ (by omega)]
  exact List.getElem_mem _

theorem carved_extend (map map2 : GameMap) (rooms : List Rect) (new_room : Rect)
    (hmono : ∀ p, tileFree map p → tileFree map2 p)
    (hcarved : ∀ i, i + 1 < rooms.length →
      corridorCarved map ((rooms.getD i default).center)
        ((rooms.getD (i+1) default).center))
    (hnewc : corridorCarved map2 ((rooms.getLastD default).center) new_room.center)
    (hne : rooms ≠ []) :
    ∀ i, i + 1 < (rooms ++ [new_room]).length →
      corridorCarved map2 (((rooms ++ [new_room]).getD i default).center)
        (((rooms ++ [new_room]).getD (i+1) default).center) := by
  intro i hi
  rw [List.length_append, List.length_singleton] at hi
  have e1 : (rooms ++ [new_room]).getD i default = rooms.getD i default := by
    rw [List.getD_eq_getElem?_getD, List.getElem?_append_left (by omega),
      ← List.getD_eq_getElem?_getD]
  by_cases hilt : i + 1 < rooms.length
  · have e2 : (rooms ++ [new_room]).getD (i+1) default = rooms.getD (i+1) default := by
      rw [List.getD_eq_getElem?_getD, List.getElem?_append_left (by omega),
        ← List.getD_eq_getElem?_getD]
    rw [e1, e2]
    exact corridorCarved_mono _ _ _ _ hmono (hcarved i hilt)
  · have hieq : i + 1 = rooms.length := by omega
    have e2 : (rooms ++ [new_room]).getD (i+1) default = new_room := by
      rw [List.getD_eq_getElem?_getD, List.getElem?_append_right (by omega)]
      have h0 : i + 1 - rooms.length = 0 := by omega
      rw [h0]
      rfl
    have e3 : rooms.getD i default = rooms.getLastD default := by
      rw [getLastD_eq_getD rooms default hne]
      congr 1
      omega
    rw [e1, e2, e3]
    exact hnewc

theorem make_map_loop_carved (n : Nat) :
    ∀ (map : GameMap) (rooms : List Rect) (objects : List Object) (level : Nat)
      (r : Rng), mapWF map → (∀ room ∈ rooms, roomInB room) →
      (∀ i, i + 1 < rooms.length →
        corridorCarved map ((rooms.getD i default).center)
          ((rooms.getD (i+1) default).center)) →
      mapWF (make_map_loop n map rooms objects level r).1 ∧
      (∀ room ∈ (make_map_loop n map rooms objects level r).2.1, roomInB room) ∧
      (∀ i, i + 1 < (make_map_loop n map rooms objects level r).2.1.length →
        corridorCarved (make_map_loop n map rooms objects level r).1
          (((make_map_loop n map rooms objects level r).2.1.getD i default).center)
          (((make_map_loop n map rooms objects level r).2.1.getD (i+1) default).center)) := by
  induction n with
  | zero =>
    intro map rooms objects level r hwf hrooms hcarved
    simp only [make_map_loop]
    exact ⟨hwf, hrooms, hcarved⟩
  | succ n ih =>
    intro map rooms objects level r hwf hrooms hcarved
    have hRm : ROOM_MIN_SIZE = (6 : Int) := rfl
    have hRM : ROOM_MAX_SIZE = (10 : Int) := rfl
    have hW : MAP_WIDTH = (80 : Int) := rfl
    have hH : MAP_HEIGHT = (43 : Int) := rfl
    unfold make_map_loop
    rcases hw : genRange ROOM_MIN_SIZE (ROOM_MAX_SIZE + 1) r with ⟨w, r1⟩
    have hwb := genRange_bounds ROOM_MIN_SIZE (ROOM_MAX_SIZE + 1) r (by decide)
    rw [hw] at hwb
    dsimp only at hwb
    dsimp only
    rcases hh : genRange ROOM_MIN_SIZE (ROOM_MAX_SIZE + 1) r1 with ⟨hgt, r2⟩
    have hhb := genRange_bounds ROOM_MIN_SIZE (ROOM_MAX_SIZE + 1) r1 (by decide)
    rw [hh] at hhb
    dsimp only at hhb
    dsimp only
    rcases hx : genRange 0 (MAP_WIDTH - w) r2 with ⟨x, r3⟩
    have hxb := genRange_bounds 0 (MAP_WIDTH - w) r2 (by omega)
    rw [hx] at hxb
    dsimp only at hxb
    dsimp only
    rcases hy : genRange 0 (MAP_HEIGHT - hgt) r3 with ⟨y, r4⟩
    have hyb := genRange_bounds 0 (MAP_HEIGHT - hgt) r3 (by omega)
    rw [hy] at hyb
    dsimp only at hyb
    dsimp only
    have hroomB : roomInB (Rect.new x y w hgt) := by
      unfold roomInB Rect.new
      dsimp only
      omega
    split
    · exact ih map rooms objects level r4 hwf hrooms hcarved
    · rcases hpo : place_objects (Rect.new x y w hgt)
          (create_room (Rect.new x y w hgt) map) objects level r4 with ⟨objects2, r5⟩
      dsimp only
      have hwf1 : mapWF (create_room (Rect.new x y w hgt) map) :=
        mapWF_create_room _ _ hwf
      rcases hcnew : (Rect.new x y w hgt).center with ⟨nx, ny⟩
      dsimp only
      have hnb := center_bounds _ hroomB
      rw [hcnew] at hnb
      dsimp only at hnb
      split
      · rename_i hemp
        have hnil : rooms = [] := List.isEmpty_iff.mp hemp
        subst hnil
        refine ih _ _ _ _ _ hwf1 ?_ ?_
        · intro room hmem
          rw [List.nil_append, List.mem_singleton] at hmem
          subst hmem
          exact hroomB
        · intro i hi
          rw [List.nil_append, List.length_singleton] at hi
          omega
      · rename_i hemp
        have hne : rooms ≠ [] := by
          intro hnil
          rw [hnil] at hemp
          simp at hemp
        rcases hprev : (rooms.getLastD default).center with ⟨px, py⟩
        dsimp only
        rcases hcoin : randBool r5 with ⟨coin, r6⟩
        dsimp only
        have hpb := center_bounds _ (hrooms _ (getLastD_mem rooms default hne))
        rw [hprev] at hpb
        dsimp only at hpb
        have hroomsApp : ∀ room ∈ rooms ++ [Rect.new x y w hgt], roomInB room := by
          intro room hmem
          rcases List.mem_append.mp hmem with hmem | hmem
          · exact hrooms _ hmem
          · rw [List.mem_singleton] at hmem
            subst hmem
            exact hroomB
        by_cases hcoinT : coin = true
        · rw [if_pos hcoinT]
          refine ih _ _ _ _ _
            (mapWF_create_v_tunnel _ _ _ _ (mapWF_create_h_tunnel _ _ _ _ hwf1))
            hroomsApp ?_
          refine carved_extend _ _ rooms (Rect.new x y w hgt) ?_ hcarved ?_ hne
          · intro p hp
            exact tileFree_create_v_tunnel _ _ _ _ _
              (tileFree_create_h_tunnel _ _ _ _ _ (tileFree_create_room _ _ _ hp))
          · rw [hprev, hcnew]
            exact Or.inl (hv_tunnels_carve (px, py) (nx, ny) _ hwf1
              hpb.1 hpb.2.1 hpb.2.2.1 hpb.2.2.2 hnb.1 hnb.2.1 hnb.2.2.1 hnb.2.2.2)
        · rw [if_neg hcoinT]
          refine ih _ _ _ _ _
            (mapWF_create_h_tunnel _ _ _ _ (mapWF_create_v_tunnel _ _ _ _ hwf1))
            hroomsApp ?_
          refine carved_extend _ _ rooms (Rect.new x y w hgt) ?_ hcarved ?_ hne
          · intro p hp
            exact tileFree_create_h_tunnel _ _ _ _ _
              (tileFree_create_v_tunnel _ _ _ _ _ (tileFree_create_room _ _ _ hp))
          · rw [hprev, hcnew]
            exact Or.inr (vh_tunnels_carve (px, py) (nx, ny) _ hwf1
              hpb.1 hpb.2.1 hpb.2.2.1 hpb.2.2.2 hnb.1 hnb.2.1 hnb.2.2.1 hnb.2.2.2)

theorem initMap_WF : mapWF initMap := by
  constructor
  · simp [initMap]
  · intro col hcol
    rw [initMap] at hcol
    rw [List.eq_of_mem_replicate hcol]
    simp

/-- C8: in every generated level, each accepted room after the first is
joined to the previous accepted room's center by an L-shaped corridor
(one horizontal and one vertical tunnel, in the order picked by the
coin flip) every tile of which is unblocked in the final map; chaining
these consecutive corridors makes every accepted room reachable from
the first. -/
theorem make_map_corridors_carved (objects : List Object) (level : Nat)
    (r : Rng) (i : Nat) (hi : i + 1 < (make_map_rooms objects level r).length) :
    corridorCarved (make_map_grid objects level r)
      (((make_map_rooms objects level r).getD i default).center)
      (((make_map_rooms objects level r).getD (i+1) default).center) := by
  have h := (make_map_loop_carved MAX_ROOMS initMap [] (objects.take 1) level r
    initMap_WF (by intro room hmem; cases hmem) (by intro j hj; simp at hj)).2.2
  unfold make_map_rooms at hi ⊢
  unfold make_map_grid
  rw [make_map_eq]
  exact h i hi

/-- C8 witness: on the concrete two-room stream, the L-corridor between
the centers of the two accepted rooms is fully carved in the final map. -/
theorem make_map_corridors_carved_witness :
    corridorCarved (make_map_grid [fxPlayerAt0] 1 fxRng)
      (((make_map_rooms [fxPlayerAt0] 1 fxRng).getD 0 default).center)
      (((make_map_rooms [fxPlayerAt0] 1 fxRng).getD 1 default).center) :=
  make_map_corridors_carved [fxPlayerAt0] 1 fxRng 0 (by decide)

end Roguelike
